import Mathlib

/-!
# cc-oci-runtime: hypervisor argument builder

A shallow embedding of `src/hypervisor.c` (network parameter expansion, token
substitution, template lookup, compaction of the argument vector) and of the
dispatcher `cc_oci_process_config` of `src/oci-config.c`.

Conventions of the embedding.

* A C string (`gchar *` up to its terminating NUL) is a `String`; each character
  stands for one `char` of the C string.  A pointer that may be `NULL` is an
  `Option`.
* A `GSList` is a `List`; the empty list is the `NULL` list.
* `printf`'s `%s` applied to a `NULL` pointer prints `(null)` (glibc).
* In/out pointer parameters become an input record and a returned record.
-/

namespace CcOci

/-! ## Data model -/

/-- Modelled from the spec: the declaration of `struct cc_oci_net_if_cfg` (header
`oci.h`) is not among the sources; the fields are the ones `hypervisor.c` reads,
which are those of the NetworkInterfaceConfig of the data model (interface name,
tap device name, optional MAC, optional IPv4 address and mask, optional IPv6
address).  Every field is a `gchar *`. -/
structure cc_oci_net_if_cfg where
  mac_address : Option String
  ip_address : Option String
  subnet_mask : Option String
  ifname : Option String
  tap_device : Option String
  ipv6_address : Option String
deriving DecidableEq, Repr

/-- Modelled from the spec: the network descriptor `struct cc_oci_net_cfg` of
`oci.h` (hostname, gateway, up to two DNS IPs, ordered collection of
interfaces). -/
structure cc_oci_net_cfg where
  hostname : Option String
  gateway : Option String
  dns_ip1 : Option String
  dns_ip2 : Option String
  interfaces : List cc_oci_net_if_cfg
deriving DecidableEq, Repr

/-- Modelled from the spec: the VM descriptor `struct cc_oci_vm_cfg` of `oci.h`
(kernel path, kernel parameters, image path).  The two paths are character
arrays (the code tests their first character), the parameters a pointer. -/
structure cc_oci_vm_cfg where
  image_path : String
  kernel_path : String
  kernel_params : Option String
deriving DecidableEq, Repr

/-- Modelled from the spec: the part of `struct oci_cfg` (`oci.h`) that
`hypervisor.c` and the dispatcher of `oci-config.c` use: specification version,
hostname and the path of the root filesystem (`oci.root.path`, a character
array). -/
structure oci_cfg where
  oci_version : Option String
  hostname : Option String
  root_path : String
deriving DecidableEq, Repr

/-- Modelled from the spec: the runtime-state descriptor `struct cc_oci_state`
of `oci.h` (per-instance runtime directory, comms socket path, process socket
path), all character arrays. -/
structure cc_oci_state where
  runtime_path : String
  comms_path : String
  procsock_path : String
deriving DecidableEq, Repr

/-- Modelled from the spec: the aggregate `struct cc_oci_config` of `oci.h`,
restricted to the fields the embedded functions touch. -/
structure cc_oci_config where
  oci : oci_cfg
  vm : Option cc_oci_vm_cfg
  net : cc_oci_net_cfg
  state : cc_oci_state
  bundle_path : Option String
  console : Option String
  use_socket_console : Bool
deriving DecidableEq, Repr

/-- What `%s` prints for a `gchar *` argument: the string, or `(null)` for a
`NULL` pointer. -/
def fmt_s : Option String → String
  | some s => s
  | none => "(null)"

/-! ## Network parameter expander (`hypervisor.c`, lines 58-246) -/

/-- The function `cc_oci_expand_net_kernel_cmdline`: kernel `ip=` parameter, built
from the first interface only. -/
def cc_oci_expand_net_kernel_cmdline (config : cc_oci_config) : String :=
  match config.net.interfaces with
  | [] => "ip=::::" ++ fmt_s config.net.hostname ++ "::off::"
  | if_cfg :: _ =>
    match if_cfg.ip_address with
    | some ip_address =>
      "ip=" ++ ip_address ++ "::" ++ fmt_s config.net.gateway ++ ":"
        ++ fmt_s if_cfg.subnet_mask ++ ":" ++ fmt_s config.net.hostname ++ ":"
        ++ fmt_s if_cfg.ifname ++ ":off::"
    | none =>
      match if_cfg.ipv6_address with
      | some ipv6_address =>
        "ip=[" ++ ipv6_address ++ "]::::" ++ fmt_s config.net.hostname ++ ":"
          ++ fmt_s if_cfg.ifname ++ ":off::"
      | none => ""

/-- The function `cc_oci_expand_netdev_cmdline` (format `QEMU_FMT_NETDEV`). -/
def cc_oci_expand_netdev_cmdline (config : cc_oci_net_if_cfg) : String :=
  "tap,ifname=" ++ fmt_s config.tap_device ++ ",script=no,downscript=no,id="
    ++ fmt_s config.tap_device

/-- The function `cc_oci_expand_net_device_cmdline` (formats `QEMU_FMT_DEVICE` and
`QEMU_FMT_DEVICE_MAC`). -/
def cc_oci_expand_net_device_cmdline (config : cc_oci_net_if_cfg) : String :=
  match config.mac_address with
  | none => "driver=virtio-net,netdev=" ++ fmt_s config.tap_device
  | some mac_address =>
    "driver=virtio-net,netdev=" ++ fmt_s config.tap_device ++ ",mac=" ++ mac_address

/-- The eight `gchar **` in/out parameters of `cc_oci_expand_network_cmdline`. -/
structure net_cmdline where
  netdev_option : Option String
  netdev_params : Option String
  net_device_option : Option String
  net_device_params : Option String
  netdev2_option : Option String
  netdev2_params : Option String
  net_device2_option : Option String
  net_device2_params : Option String
deriving DecidableEq, Repr

/-- The eight locals of `cc_oci_expand_cmdline` (lines 278-286), all initialised to
`NULL`, whose addresses it passes to `cc_oci_expand_network_cmdline`. -/
def net_cmdline.absent : net_cmdline :=
  { netdev_option := none, netdev_params := none,
    net_device_option := none, net_device_params := none,
    netdev2_option := none, netdev2_params := none,
    net_device2_option := none, net_device2_params := none }

/-- The inner loop "skip duplicates" (lines 207-215): the indices `i < index` whose
interface name equals that of `if_cfg` (`g_strcmp0` is 0), for each of which the
debug message is logged.  Its `continue` continues this inner loop itself, so the
loop yields nothing else. -/
def skip_duplicates (interfaces : List cc_oci_net_if_cfg) (index : Nat)
    (if_cfg : cc_oci_net_if_cfg) : List Nat :=
  (List.range index).filter fun i =>
    match interfaces.get? i with
    | some prev_cfg => decide (if_cfg.ifname = prev_cfg.ifname)
    | none => false

/-- The outer `for` loop of `cc_oci_expand_network_cmdline` (lines 197-236), at
position `index` with the not yet visited interfaces `rest`
(`g_slist_nth_data (interfaces, index)` is the head of `rest`). -/
def network_loop (interfaces : List cc_oci_net_if_cfg) :
    List cc_oci_net_if_cfg → Nat → net_cmdline → net_cmdline
  | [], _, out => out
  | if_cfg :: rest, index, out =>
    let _logged := skip_duplicates interfaces index if_cfg
    if out.netdev_option = none then
      -- first interface, then `continue`
      network_loop interfaces rest (index + 1)
        { out with
          netdev_option := some "-netdev"
          net_device_option := some "-device"
          netdev_params := some (cc_oci_expand_netdev_cmdline if_cfg)
          net_device_params := some (cc_oci_expand_net_device_cmdline if_cfg) }
    else if out.netdev2_option = none then
      -- second interface, then `break`
      { out with
        netdev2_option := some "-netdev"
        net_device2_option := some "-device"
        netdev2_params := some (cc_oci_expand_netdev_cmdline if_cfg)
        net_device2_params := some (cc_oci_expand_net_device_cmdline if_cfg) }
    else
      network_loop interfaces rest (index + 1) out

/-- The function `cc_oci_expand_network_cmdline`.  `out` holds the values the eight
pointers point to on entry; the result holds them on return (the function always
returns `true`). -/
def cc_oci_expand_network_cmdline (config : cc_oci_config) (out : net_cmdline) :
    net_cmdline :=
  let out :=
    { out with
      netdev_option := none, netdev_params := none,
      net_device_option := none, net_device_params := none }
  match config.net.interfaces with
  | [] =>
    -- "Support --net=none", then `return true`
    { out with
      netdev_option := some "-net", netdev_params := some "none",
      net_device_option := some "-net", net_device_params := some "none" }
  | interfaces =>
    let out := network_loop interfaces interfaces 0 out
    if out.netdev2_option = none then
      { out with
        netdev2_option := some "-net", netdev2_params := some "none",
        net_device2_option := some "-net", net_device2_params := some "none" }
    else out

/-! ## GLib and libc helpers used by the token substitution engine -/

/-- The constant `LINE_MAX` of `<limits.h>` (glibc: `_POSIX2_LINE_MAX`). -/
def LINE_MAX : Nat := 2048

/-- GLib's `g_ascii_isspace`: space, tab, line feed, form feed, carriage return (the
vertical tab is not in GLib's table). -/
def g_ascii_isspace (c : Char) : Bool :=
  c = ' ' || c = '\t' || c = '\n' || c = Char.ofNat 12 || c = '\r'

/-- The scan of GLib's `g_strstr_len`: `p` runs over at most `positions` start
offsets (`p <= end`) and stops at the end of the string (`*p`); the result is the
offset of the first match relative to the haystack. -/
def g_strstr_len_scan (needle : List Char) : List Char → Nat → Option Nat
  | [], _ => none
  | _ :: _, 0 => none
  | c :: cs, positions + 1 =>
    if (c :: cs).take needle.length = needle then some 0
    else (g_strstr_len_scan needle cs positions).map (· + 1)

/-- GLib's `g_strstr_len (haystack, haystack_len, needle)` for a non-negative
`haystack_len`: offset of the first occurrence of `needle` lying within the first
`haystack_len` characters of `haystack`, `none` for `NULL`. -/
def g_strstr_len (haystack : List Char) (haystack_len : Nat) (needle : List Char) :
    Option Nat :=
  if needle.length = 0 then some 0
  else if haystack_len < needle.length then none
  else g_strstr_len_scan needle haystack (haystack_len - needle.length + 1)

/-- GLib's `g_strchug`: remove the leading whitespace. -/
def g_strchug (s : List Char) : List Char :=
  s.dropWhile g_ascii_isspace

/-- GLib's `g_strchomp`: remove the trailing whitespace (walk back from the end
while `g_ascii_isspace`). -/
def g_strchomp (s : List Char) : List Char :=
  (s.reverse.dropWhile g_ascii_isspace).reverse

/-- GLib's `g_strstrip (s)`, the macro `g_strchomp (g_strchug (s))`. -/
def g_strstrip (s : String) : String :=
  ⟨g_strchomp (g_strchug s.data)⟩

/-- GLib's `g_strrstr (haystack, needle)` for a one-character needle: offset of the
last occurrence, `none` for `NULL`. -/
def g_strrstr (haystack : List Char) (needle : Char) : Option Nat :=
  match g_strstr_len haystack.reverse haystack.length [needle] with
  | some k => some (haystack.length - 1 - k)
  | none => none

/-- GLib's `g_path_is_absolute` on Unix: the name starts with `/`. -/
def g_path_is_absolute (file_name : String) : Bool :=
  file_name.data.head? = some '/'

/-! ## Comment handling (`cc_oci_expand_cmdline`, lines 476-491) -/

/-- The `while (ptr)` loop of lines 484-491.  `ptr` is the offset in `arg` of the
`#` found last (`none` for `NULL`).  `*(ptr-1)` is read at offset `ptr - 1`; the
result is `none` when that read is before the start of the line or when `fuel`
iterations were not enough. -/
def comment_loop (arg : List Char) : Nat → Option Nat → Option (List Char)
  | _, none => some arg
  | 0, some _ => none
  | fuel + 1, some ptr =>
    if ptr = 0 then none
    else
      match arg.get? (ptr - 1) with
      | none => none
      | some prev =>
        if g_ascii_isspace prev then
          -- `g_strlcpy (ptr, "\0", LINE_MAX)`: the line ends at `ptr`
          some (arg.take ptr)
        else
          comment_loop arg fuel
            ((g_strstr_len (arg.drop (ptr + 1)) LINE_MAX ['#']).map (· + (ptr + 1)))

/-- Lines 482-491 for a line that does not start with `#`: find the first `#`
(within `LINE_MAX`), then run the loop.  Each iteration moves `ptr` forward, so
the length of the line is enough fuel. -/
def strip_trailing_comment (arg : List Char) : Option (List Char) :=
  comment_loop arg arg.length (g_strstr_len arg LINE_MAX ['#'])

/-- Comment handling of one line, lines 476-491: a line whose first character is
`#` is cleared (and the loop `continue`s); otherwise the trailing comment is cut. -/
def strip_comment (arg : String) : Option String :=
  if arg.data.head? = some '#' then some ""
  else (strip_trailing_comment arg.data).map String.mk

/-- The reference of the specification for comment handling, written from its
words: a line whose first character is `#` becomes empty; otherwise the line is cut
just before the first `#` whose preceding character is ASCII whitespace; otherwise
it is unchanged.  `cut_at_comment prev s` handles the part `s` of the line that
follows the character `prev`. -/
def cut_at_comment (prev : Char) : List Char → List Char
  | [] => []
  | c :: cs =>
    if c = '#' ∧ g_ascii_isspace prev = true then []
    else c :: cut_at_comment c cs

/-- The reference of the specification for comment handling of a whole line. -/
def comment_reference (line : String) : String :=
  match line.data with
  | [] => ""
  | c :: cs => if c = '#' then "" else ⟨c :: cut_at_comment c cs⟩

/-! ## Compaction pass (`cc_oci_vm_args_get`, lines 614-641) -/

/-- First loop (lines 615-619): count the non-empty lines. -/
def count_non_empty : List String → Nat → Nat
  | [], line_count => line_count
  | arg :: rest, line_count =>
    if arg ≠ "" then count_non_empty rest (line_count + 1)
    else count_non_empty rest line_count

/-- Second loop (lines 624-635): a non-empty line is stripped and stored at
`new_args[line_count]`; an empty line is freed. -/
def copy_non_empty : List String → List (Option String) → Nat → List (Option String)
  | [], new_args, _ => new_args
  | arg :: rest, new_args, line_count =>
    if arg ≠ "" then
      copy_non_empty rest (new_args.set line_count (some (g_strstrip arg))) (line_count + 1)
    else
      copy_non_empty rest new_args line_count

/-- The strings of a `NULL`-terminated vector: the entries before the first
`NULL`. -/
def strv : List (Option String) → List String
  | some s :: rest => s :: strv rest
  | _ => []

/-- The compaction pass of `cc_oci_vm_args_get` (lines 614-641): `new_args` is
allocated zeroed with `line_count + 1` entries, filled by the second loop, and
becomes `*args`. -/
def compact_args (args : List String) : List String :=
  let line_count := count_non_empty args 0
  let new_args : List (Option String) := List.replicate (line_count + 1) none
  strv (copy_non_empty args new_args 0)

/-! ## Environment of `cc_oci_expand_cmdline` -/

/-- What `stat` reports about an existing file: whether it is a directory
(`S_ISDIR`) and its size (`st_size`). -/
structure file_stat where
  is_dir : Bool
  st_size : Nat
deriving DecidableEq, Repr

/-- The tests of GLib's `GFileTest` that the code requests. -/
inductive GFileTest where
  | G_FILE_TEST_IS_DIR
  | G_FILE_TEST_EXISTS
deriving DecidableEq, Repr

/-- GLib's `g_file_test (filename, test)` for a bit field `test` given as the list
of its bits: true as soon as one of the requested tests is true. -/
def g_file_test (fs : String → Option file_stat) (filename : String)
    (test : List GFileTest) : Bool :=
  test.any fun t =>
    match t, fs filename with
    | GFileTest.G_FILE_TEST_EXISTS, some _ => true
    | GFileTest.G_FILE_TEST_IS_DIR, some st => st.is_dir
    | _, none => false

/-- Everything outside `hypervisor.c` that `cc_oci_expand_cmdline` consults: the
file system, the terminal, the random UUID, the outcome of `symlink`, GLib's
program lookup and path building, the replacement helper `cc_oci_replace_string`
of `util.c` (returning its `gboolean` and the line it leaves) and the constant
`CC_OCI_CONSOLE_SOCKET` of `oci.h`. -/
structure Env where
  fs : String → Option file_stat
  isatty_stdin : Bool
  uuid : Nat → Nat
  symlink : String → String → Bool
  g_find_program_in_path : String → Option String
  g_build_path : String → String → String
  cc_oci_replace_string : String → String → Option String → Bool × String
  CC_OCI_CONSOLE_SOCKET : String

/-! ## UUID formatting (`cc_oci_expand_cmdline`, lines 274-337) -/

/-- Length of an ASCII-formatted UUID with its terminator (`UUID_MAX`). -/
def UUID_MAX : Nat := 37

/-- The local `uuid_pattern`. -/
def uuid_pattern : List Char := "00000000-0000-0000-0000-000000000000".data

/-- One lower-case hexadecimal digit. -/
def hex_digit (n : Nat) : Char :=
  "0123456789abcdef".data.getD (n % 16) '0'

/-- The format `%02x` applied to an `unsigned char`. -/
def fmt_02x (byte : Nat) : List Char :=
  [hex_digit (byte % 256 / 16), hex_digit (byte % 256)]

/-- The call `g_snprintf (uuid_str + uuid_index, n, ...)` where the formatted text is
`text`: the buffer holds `uuid_str` up to `uuid_index`, then at most `n - 1`
characters of `text`; the return value is the length of `text`. -/
def g_snprintf (uuid_str : List Char) (uuid_index n : Nat) (text : List Char) :
    List Char × Nat :=
  (if n = 0 then uuid_str else uuid_str.take uuid_index ++ text.take (n - 1), text.length)

/-- The `for` loop of lines 326-337 over the bytes `i` still to format. -/
def uuid_loop (uuid : Nat → Nat) : List Nat → List Char → Nat → List Char
  | [], uuid_str, _ => uuid_str
  | i :: rest, uuid_str, uuid_index =>
    if uuid_index < UUID_MAX then
      let r := g_snprintf uuid_str uuid_index (UUID_MAX - uuid_index) (fmt_02x (uuid i))
      let uuid_str := r.1
      let uuid_index := uuid_index + r.2
      if uuid_pattern.get? uuid_index = some '-' then
        let r := g_snprintf uuid_str uuid_index (UUID_MAX - uuid_index) ['-']
        uuid_loop uuid rest r.1 (uuid_index + r.2)
      else
        uuid_loop uuid rest uuid_str uuid_index
    else uuid_str

/-- The string `uuid_str` after the loop (`sizeof (uuid_t)` is 16). -/
def uuid_str (uuid : Nat → Nat) : String :=
  ⟨uuid_loop uuid (List.range 16) [] 0⟩

/-! ## Token substitution (`cc_oci_expand_cmdline`, lines 260-512) -/

/-- The local `struct special_tag`. -/
structure special_tag where
  name : String
  value : Option String
deriving DecidableEq, Repr

/-- The table `special_tags` (lines 438-461), without its `NULL` terminator.
`name_value` is `g_strrstr (uuid_str, "-") + 1`. -/
def special_tags (config : cc_oci_config) (vm : cc_oci_vm_cfg) (bytes : String)
    (procsock_device console_device : String) (name_value : String) (uuid_str : String)
    (net : net_cmdline) : List special_tag :=
  [ { name := "@WORKLOAD_DIR@", value := some config.oci.root_path },
    { name := "@KERNEL@", value := some vm.kernel_path },
    { name := "@KERNEL_PARAMS@", value := vm.kernel_params },
    { name := "@IMAGE@", value := some vm.image_path },
    { name := "@SIZE@", value := some bytes },
    { name := "@COMMS_SOCKET@", value := some config.state.comms_path },
    { name := "@PROCESS_SOCKET@", value := some procsock_device },
    { name := "@CONSOLE_DEVICE@", value := some console_device },
    { name := "@NAME@", value := some name_value },
    { name := "@UUID@", value := some uuid_str },
    { name := "@NETDEV@", value := net.netdev_option },
    { name := "@NETDEV_PARAMS@", value := net.netdev_params },
    { name := "@NETDEVICE@", value := net.net_device_option },
    { name := "@NETDEVICE_PARAMS@", value := net.net_device_params },
    { name := "@NETDEV2@", value := net.netdev2_option },
    { name := "@NETDEV2_PARAMS@", value := net.netdev2_params },
    { name := "@NETDEVICE2@", value := net.net_device2_option },
    { name := "@NETDEVICE2_PARAMS@", value := net.net_device2_params } ]

/-- The loop over the tags (lines 493-497): the `gboolean` is false when a
replacement failed (`goto out`); the string is the line as it stands then. -/
def replace_tags (env : Env) : List special_tag → String → Bool × String
  | [], arg => (true, arg)
  | tag :: tags, arg =>
    match env.cc_oci_replace_string arg tag.name tag.value with
    | (false, arg) => (false, arg)
    | (true, arg) => replace_tags env tags arg

/-- Lines 464-474: the first entry is the command; a relative name is replaced by
what the search path gives, when it gives something. -/
def resolve_command (env : Env) (count : Nat) (arg : String) : String :=
  if count = 0 then
    if g_path_is_absolute arg then arg
    else
      match env.g_find_program_in_path arg with
      | some cmd => cmd
      | none => arg
  else arg

/-- The loop over the lines (lines 463-498).  The result is `none` when the comment
scan has no defined result; otherwise the `gboolean` is false when the loop was
left by `goto out`, and the list holds the lines as they stand. -/
def expand_args (env : Env) (tags : List special_tag) :
    List String → Nat → Option (Bool × List String)
  | [], _ => some (true, [])
  | arg :: rest, count =>
    let arg := resolve_command env count arg
    if arg.data.head? = some '#' then
      -- the line is a comment: cleared, then `continue`
      (expand_args env tags rest (count + 1)).map fun r => (r.1, "" :: r.2)
    else
      match strip_trailing_comment arg.data with
      | none => none
      | some chars =>
        match replace_tags env tags ⟨chars⟩ with
        | (false, arg) => some (false, arg :: rest)
        | (true, arg) =>
          (expand_args env tags rest (count + 1)).map fun r => (r.1, arg :: r.2)

/-- What a call of `cc_oci_expand_cmdline` leaves behind: its return value, the
configuration and the argument list as they stand (`none` for a `NULL` pointer),
and the symbolic links it created (target, link path). -/
structure expand_result where
  ret : Bool
  config : Option cc_oci_config
  args : Option (List String)
  symlinks : List (String × String)

/-- The function `cc_oci_expand_cmdline`.  The result is `none` only when the C
code has no defined result in the embedding (see `comment_loop`, and `g_strrstr`
returning `NULL` at line 450). -/
def cc_oci_expand_cmdline (env : Env) (config : Option cc_oci_config)
    (args : Option (List String)) : Option expand_result :=
  let failed : Option expand_result :=
    some { ret := false, config := config, args := args, symlinks := [] }
  match config, args with
  | none, _ => failed
  | _, none => failed
  | some config, some args =>
  match config.vm, config.bundle_path with
  | none, _ => failed
  | _, none => failed
  | some vm, some bundle_path =>
  -- "We're about to launch the hypervisor so validate paths."
  match (if vm.image_path = "" then none else env.fs vm.image_path) with
  | none => failed
  | some st =>
  if ¬ (vm.kernel_path ≠ ""
        ∧ g_file_test env.fs vm.kernel_path [GFileTest.G_FILE_TEST_EXISTS] = true) then
    failed
  else if ¬ (config.oci.root_path ≠ ""
        ∧ g_file_test env.fs config.oci.root_path
            [GFileTest.G_FILE_TEST_EXISTS, GFileTest.G_FILE_TEST_IS_DIR] = true) then
    failed
  else
  let uuid_str := uuid_str env.uuid
  let bytes := toString (st.st_size % 2 ^ 64)
  -- console: (configuration, console device, links created) or a failed link
  let console : (cc_oci_config × String × List (String × String))
      ⊕ (cc_oci_config × List (String × String)) :=
    if config.console = none ∨ config.console = some "" then
      let config := { config with use_socket_console := true }
      if ¬ env.isatty_stdin then
        let console := env.g_build_path bundle_path "cc-std"
        let config := { config with console := some console }
        let init_stdout := env.g_build_path bundle_path "init-stdout"
        let cc_stdout := env.g_build_path bundle_path "cc-std.out"
        let init_stdin := env.g_build_path bundle_path "init-stdin"
        let cc_stdin := env.g_build_path bundle_path "cc-std.in"
        if ¬ env.symlink init_stdout cc_stdout then
          Sum.inr (config, [])
        else if ¬ env.symlink init_stdin cc_stdin then
          Sum.inr (config, [(init_stdout, cc_stdout)])
        else
          Sum.inl (config, "pipe,id=charconsole0,path=" ++ console,
            [(init_stdout, cc_stdout), (init_stdin, cc_stdin)])
      else
        let console := env.g_build_path config.state.runtime_path env.CC_OCI_CONSOLE_SOCKET
        let config := { config with console := some console }
        Sum.inl (config,
          "socket,path=" ++ console ++ ",server,nowait,id=charconsole0,signal=off", [])
    else
      Sum.inl (config, "serial,id=charconsole0,path=" ++ fmt_s config.console, [])
  match console with
  | Sum.inr (config, symlinks) =>
    some { ret := false, config := some config, args := some args, symlinks := symlinks }
  | Sum.inl (config, console_device, symlinks) =>
  let procsock_device :=
    "socket,id=procsock,path=" ++ config.state.procsock_path ++ ",server,nowait"
  let _kernel_net_params := cc_oci_expand_net_kernel_cmdline config
  let net := cc_oci_expand_network_cmdline config net_cmdline.absent
  match g_strrstr uuid_str.data '-' with
  | none => none
  | some hyphen =>
  let tags := special_tags config vm bytes procsock_device console_device
    ⟨uuid_str.data.drop (hyphen + 1)⟩ uuid_str net
  match expand_args env tags args 0 with
  | none => none
  | some (ret, args) =>
    some { ret := ret, config := some config, args := some args, symlinks := symlinks }

/-! ## Template source resolver and argument builder (`hypervisor.c`, lines 514-647) -/

/-- What the builder needs beyond `Env`: the two directories `sysconfdir` and
`defaultsdir` (globals set from `SYSCONFDIR` and `DEFAULTSDIR`), the constant
`CC_OCI_HYPERVISOR_CMDLINE_FILE` of `oci.h`, and two helpers of `util.c`:
`cc_oci_get_bundlepath_file` (`none` for `NULL`) and `cc_oci_file_to_strv`, given
the possibly `NULL` file name and giving the lines read, `none` when it fails. -/
structure BuilderEnv extends Env where
  sysconfdir : String
  defaultsdir : String
  CC_OCI_HYPERVISOR_CMDLINE_FILE : String
  cc_oci_get_bundlepath_file : String → String → Option String
  cc_oci_file_to_strv : Option String → Option (List String)

/-- The input and output steps of the builder, in the order they are performed:
an existence check of a template candidate (`g_file_test` in
`cc_oci_vm_args_file_path`), the read of the template (`cc_oci_file_to_strv`), and
the call of `cc_oci_expand_cmdline`, which starts with the path validations. -/
inductive io_event where
  | template_exists (path : String)
  | template_read (file : Option String)
  | expand_cmdline
deriving DecidableEq, Repr

/-- The function `cc_oci_vm_args_file_path`: the path found (`none` for `NULL`) and
the existence checks performed, in order. -/
def cc_oci_vm_args_file_path (env : BuilderEnv) (config : Option cc_oci_config) :
    Option String × List io_event :=
  match config with
  | none => (none, [])
  | some config =>
  match config.bundle_path with
  | none => (none, [])
  | some bundle_path =>
  match env.cc_oci_get_bundlepath_file bundle_path env.CC_OCI_HYPERVISOR_CMDLINE_FILE with
  | none => (none, [])
  | some args_file =>
  if g_file_test env.fs args_file [GFileTest.G_FILE_TEST_EXISTS] then
    (some args_file, [io_event.template_exists args_file])
  else
    -- "Try sysconfdir if bundle file does not exist"
    let args_file2 := env.g_build_path env.sysconfdir env.CC_OCI_HYPERVISOR_CMDLINE_FILE
    if g_file_test env.fs args_file2 [GFileTest.G_FILE_TEST_EXISTS] then
      (some args_file2,
        [io_event.template_exists args_file, io_event.template_exists args_file2])
    else
      -- "Finally, try stateless dir"
      let args_file3 := env.g_build_path env.defaultsdir env.CC_OCI_HYPERVISOR_CMDLINE_FILE
      if g_file_test env.fs args_file3 [GFileTest.G_FILE_TEST_EXISTS] then
        (some args_file3,
          [io_event.template_exists args_file, io_event.template_exists args_file2,
           io_event.template_exists args_file3])
      else
        -- "no file found, so give up"
        (none,
          [io_event.template_exists args_file, io_event.template_exists args_file2,
           io_event.template_exists args_file3])

/-- What a call of `cc_oci_vm_args_get` leaves behind: its return value, the vector
`*args` (`none` while nothing was stored), the configuration, the symbolic links
created, and the input and output steps performed, in order. -/
structure vm_args_result where
  ret : Bool
  args : Option (List String)
  config : Option cc_oci_config
  symlinks : List (String × String)
  trace : List io_event

/-- The function `cc_oci_vm_args_get`.  `args_given` tells whether the pointer
`args` is not `NULL`.  The result is `none` only when `cc_oci_expand_cmdline` has
no defined result. -/
def cc_oci_vm_args_get (env : BuilderEnv) (config : Option cc_oci_config)
    (args_given : Bool) : Option vm_args_result :=
  if config = none ∨ args_given = false then
    some { ret := false, args := none, config := config, symlinks := [], trace := [] }
  else
    let found := cc_oci_vm_args_file_path env config
    let args_file := found.1
    -- a `NULL` `args_file` is logged ("File %s not found") and passed on
    let trace := found.2 ++ [io_event.template_read args_file]
    match env.cc_oci_file_to_strv args_file with
    | none =>
      some { ret := false, args := none, config := config, symlinks := [], trace := trace }
    | some lines =>
      let trace := trace ++ [io_event.expand_cmdline]
      match cc_oci_expand_cmdline env.toEnv config (some lines) with
      | none => none
      | some r =>
        if r.ret = false then
          some { ret := false, args := r.args, config := r.config, symlinks := r.symlinks,
                 trace := trace }
        else
          some { ret := true, args := r.args.map compact_args, config := r.config,
                 symlinks := r.symlinks, trace := trace }

/-! ## Network expansion without the duplicate check -/

/-- The loop of `cc_oci_expand_network_cmdline` with the inner loop "skip
duplicates" (lines 206-215) removed, as the specification describes the procedure
to compare with. -/
def network_loop_without_skip :
    List cc_oci_net_if_cfg → Nat → net_cmdline → net_cmdline
  | [], _, out => out
  | if_cfg :: rest, index, out =>
    if out.netdev_option = none then
      network_loop_without_skip rest (index + 1)
        { out with
          netdev_option := some "-netdev"
          net_device_option := some "-device"
          netdev_params := some (cc_oci_expand_netdev_cmdline if_cfg)
          net_device_params := some (cc_oci_expand_net_device_cmdline if_cfg) }
    else if out.netdev2_option = none then
      { out with
        netdev2_option := some "-netdev"
        net_device2_option := some "-device"
        netdev2_params := some (cc_oci_expand_netdev_cmdline if_cfg)
        net_device2_params := some (cc_oci_expand_net_device_cmdline if_cfg) }
    else
      network_loop_without_skip rest (index + 1) out

/-- The procedure of `cc_oci_expand_network_cmdline` with the inner loop "skip
duplicates" removed. -/
def cc_oci_expand_network_cmdline_without_skip (config : cc_oci_config)
    (out : net_cmdline) : net_cmdline :=
  let out :=
    { out with
      netdev_option := none, netdev_params := none,
      net_device_option := none, net_device_params := none }
  match config.net.interfaces with
  | [] =>
    { out with
      netdev_option := some "-net", netdev_params := some "none",
      net_device_option := some "-net", net_device_params := some "none" }
  | interfaces =>
    let out := network_loop_without_skip interfaces 0 out
    if out.netdev2_option = none then
      { out with
        netdev2_option := some "-net", netdev2_params := some "none",
        net_device2_option := some "-net", net_device2_params := some "none" }
    else out

/-! ## Spec dispatch engine (`oci-config.c`, lines 175-219) -/

/-- GLib's `GNode` as the dispatcher reads it: the `data` pointer, taken as a
string (`none` for `NULL`), and the children in order (`node->children` is the
first of them). -/
inductive GNode where
  | node (data : Option String) (children : List GNode)

/-- The field `data` of a node. -/
def GNode.data : GNode → Option String
  | GNode.node data _ => data

/-- The children of a node, first child first. -/
def GNode.children : GNode → List GNode
  | GNode.node _ children => children

/-- Modelled from the spec: `struct spec_handler` is declared in a header that is
not among the sources; by the data model a handler is a section name and a function
that consumes that section's subtree and mutates the configuration, reporting
success or failure.  The function gets the node and the configuration and gives
its `gboolean` and the configuration as it leaves it. -/
structure spec_handler where
  name : String
  handle_section : GNode → cc_oci_config → Bool × cc_oci_config

/-- One call of a handler: the index of the handler in the array, the index of the
top-level child it was called for, and what it returned. -/
structure handler_call where
  handler : Nat
  child : Nat
  ok : Bool
deriving DecidableEq, Repr

/-- What a call of `cc_oci_process_config` leaves behind: its return value, the
configuration, and the handler calls made, in order. -/
structure process_result where
  ret : Bool
  config : cc_oci_config
  calls : List handler_call

/-- Lines 195-203: for a node with children, the labels `ociVersion` and `hostname`
copy the data of the first child into the configuration. -/
def copy_scalars (node : GNode) (data : String) (config : cc_oci_config) : cc_oci_config :=
  match node.children with
  | [] => config
  | first :: _ =>
    let config :=
      if data = "ociVersion" then
        { config with oci := { config.oci with oci_version := first.data } }
      else config
    if data = "hostname" then
      { config with oci := { config.oci with hostname := first.data } }
    else config

/-- The loop "looking for right spec handler" (lines 206-215) from handler number
`i` on, for the top-level child number `child` with label `data`.  A `ret` of
`false` is the `return false` of line 211; otherwise the loop was left by `break`
or at the end of the array. -/
def handler_loop (node : GNode) (data : String) (child : Nat) :
    List spec_handler → Nat → cc_oci_config → List handler_call → process_result
  | [], _, config, calls => { ret := true, config := config, calls := calls }
  | h :: rest, i, config, calls =>
    if h.name = data then
      let r := h.handle_section node config
      { ret := r.1, config := r.2,
        calls := calls ++ [{ handler := i, child := child, ok := r.1 }] }
    else
      handler_loop node data child rest (i + 1) config calls

/-- The loop over the top-level children (lines 190-216), from child number `child`
on. -/
def process_children (spec_handlers : List spec_handler) :
    List GNode → Nat → cc_oci_config → List handler_call → process_result
  | [], _, config, calls => { ret := true, config := config, calls := calls }
  | node :: rest, child, config, calls =>
    match node.data with
    | none => process_children spec_handlers rest (child + 1) config calls
    | some data =>
      let r := handler_loop node data child spec_handlers 0
        (copy_scalars node data config) calls
      if r.ret then process_children spec_handlers rest (child + 1) r.config r.calls
      else r

/-- The function `cc_oci_process_config`; `root` is `none` for a `NULL` root, which
has no first child. -/
def cc_oci_process_config (root : Option GNode) (config : cc_oci_config)
    (spec_handlers : List spec_handler) : process_result :=
  match root with
  | none => { ret := true, config := config, calls := [] }
  | some root => process_children spec_handlers root.children 0 config []

/-! ## The reads of the comment scan -/

/-- The offsets `ptr` at which the loop of lines 484-491 evaluates `*(ptr-1)`, in
the order of the iterations: the loop of `comment_loop`, keeping the pointers
instead of the line. -/
def comment_loop_reads (arg : List Char) : Nat → Option Nat → List Nat
  | _, none => []
  | 0, some _ => []
  | fuel + 1, some ptr =>
    ptr ::
      match arg.get? (ptr - 1) with
      | none => []
      | some prev =>
        if g_ascii_isspace prev then []
        else
          comment_loop_reads arg fuel
            ((g_strstr_len (arg.drop (ptr + 1)) LINE_MAX ['#']).map (· + (ptr + 1)))

/-! ## Configurations that differ in the inputs of the kernel IP parameter only -/

/-- Two configurations that differ at most in the fields that
`cc_oci_expand_net_kernel_cmdline` reads: the network hostname, the gateway, and
the IP address, subnet mask, IPv6 address and name of the first interface.
Everything else is the same: in particular both have a first interface or neither
has, with the same MAC address and tap device, and the later interfaces are the
same. -/
def same_but_kernel_net_fields (c1 c2 : cc_oci_config) : Prop :=
  c1.oci = c2.oci ∧ c1.vm = c2.vm ∧ c1.state = c2.state ∧
  c1.bundle_path = c2.bundle_path ∧ c1.console = c2.console ∧
  c1.use_socket_console = c2.use_socket_console ∧
  c1.net.dns_ip1 = c2.net.dns_ip1 ∧ c1.net.dns_ip2 = c2.net.dns_ip2 ∧
  c1.net.interfaces.tail = c2.net.interfaces.tail ∧
  c1.net.interfaces.head?.map (fun i => (i.mac_address, i.tap_device))
    = c2.net.interfaces.head?.map (fun i => (i.mac_address, i.tap_device))

/-! ## Examples -/

/-- An interface used in the examples: `eth0` on `tap0`, no MAC, IPv4 only. -/
def example_if : cc_oci_net_if_cfg :=
  { mac_address := none, ip_address := some "10.0.2.15", subnet_mask := some "255.255.255.0",
    ifname := some "eth0", tap_device := some "tap0", ipv6_address := none }

/-- A second example interface: `eth1` on `tap1` with a MAC and an IPv6 address. -/
def example_if2 : cc_oci_net_if_cfg :=
  { mac_address := some "02:00:ca:fe:00:01", ip_address := none, subnet_mask := none,
    ifname := some "eth1", tap_device := some "tap1", ipv6_address := some "fe80::1" }

/-- An example configuration with the given interfaces, gateway `10.0.2.2` and
hostname `vm1`; every path it names is used by the examples' file systems. -/
def example_config (interfaces : List cc_oci_net_if_cfg) : cc_oci_config :=
  { oci := { oci_version := some "1.0.0", hostname := some "vm1", root_path := "/bundle/rootfs" }
    vm := some { image_path := "/img", kernel_path := "/vmlinux", kernel_params := some "quiet" }
    net := { hostname := some "vm1", gateway := some "10.0.2.2", dns_ip1 := none, dns_ip2 := none,
             interfaces := interfaces }
    state := { runtime_path := "/run/cc", comms_path := "/run/cc/comms.sock",
               procsock_path := "/run/cc/proc.sock" }
    bundle_path := some "/bundle"
    console := some "/dev/pts/3"
    use_socket_console := false }

/-- An example environment: the image, the kernel and the file `/bundle/rootfs`
exist, `/bundle/rootfs` being a directory or a regular file according to
`root_is_dir`; standard input is a terminal.  The lines of the examples hold no
placeholder, so the replacement helper leaves them as they are; it fails for a
`NULL` value. -/
def example_env (root_is_dir : Bool) : Env :=
  { fs := fun path =>
      if path = "/img" then some { is_dir := false, st_size := 1024 }
      else if path = "/vmlinux" then some { is_dir := false, st_size := 512 }
      else if path = "/bundle/rootfs" then some { is_dir := root_is_dir, st_size := 3 }
      else none
    isatty_stdin := true
    uuid := fun i => 17 * i
    symlink := fun _ _ => true
    g_find_program_in_path := fun _ => none
    g_build_path := fun dir file => dir ++ "/" ++ file
    cc_oci_replace_string := fun line _ value => (value.isSome, line)
    CC_OCI_CONSOLE_SOCKET := "console.sock" }

/-- A line of 2050 characters: 2047 times `a`, then a space, a `#` and `c`. -/
def long_line : String := ⟨List.replicate 2047 'a' ++ " #c".data⟩

/-- An example environment of the builder: the file system of `example_env true`
with a template in `sysconfdir` only; the template has three lines. -/
def example_builder_env : BuilderEnv :=
  { toEnv :=
      { example_env true with
        fs := fun path =>
          if path = "/etc/cc-oci-runtime/hypervisor.args" then
            some { is_dir := false, st_size := 64 }
          else (example_env true).fs path }
    sysconfdir := "/etc/cc-oci-runtime"
    defaultsdir := "/usr/share/defaults/cc-oci-runtime"
    CC_OCI_HYPERVISOR_CMDLINE_FILE := "hypervisor.args"
    cc_oci_get_bundlepath_file := fun bundle_path file => some (bundle_path ++ "/" ++ file)
    cc_oci_file_to_strv := fun file =>
      if file = some "/etc/cc-oci-runtime/hypervisor.args" then
        some ["/usr/bin/qemu-lite", "-m 1G", "# memory"]
      else none }

/-- The example configuration with one interface and an image path that names no
file. -/
def example_config_no_image : cc_oci_config :=
  { example_config [example_if] with
    vm := some { image_path := "/no-image", kernel_path := "/vmlinux",
                 kernel_params := some "quiet" } }

/-- An example handler set: `process` succeeds and sets the hostname to `seen`,
`mounts` fails after setting the hostname to `broken`, a second `process` (never
reached) fails, and `hostname` succeeds and leaves the configuration as it is. -/
def example_handlers : List spec_handler :=
  [ { name := "process",
      handle_section := fun _ config =>
        (true, { config with oci := { config.oci with hostname := some "seen" } }) },
    { name := "mounts",
      handle_section := fun _ config =>
        (false, { config with oci := { config.oci with hostname := some "broken" } }) },
    { name := "process", handle_section := fun _ config => (false, config) },
    { name := "hostname", handle_section := fun _ config => (true, config) } ]

/-- A leaf node holding a value. -/
def leaf (value : String) : GNode := GNode.node (some value) []

/-- A top-level section with a label and one nested value. -/
def section_node (label value : String) : GNode :=
  GNode.node (some label) [leaf value]

/-- The example environment with a stand-in for the replacement helper that is
right on the lines used with it: a line that is exactly a placeholder becomes the
value (failure for a `NULL` value), any other line is left as it is. -/
def example_env_replacing : Env :=
  { example_env true with
    cc_oci_replace_string := fun line name value =>
      if line = name then (value.isSome, value.getD line) else (true, line) }

/-- An interface with the name of `example_if` (`eth0`) on another tap device. -/
def example_if_duplicate : cc_oci_net_if_cfg :=
  { example_if with tap_device := some "tap1", mac_address := some "02:00:ca:fe:00:02" }

/-- The example configuration with one interface, with another network hostname,
another gateway, and another IP address, mask, IPv6 address and name of that
interface. -/
def example_config_other_net : cc_oci_config :=
  { example_config
      [{ example_if with
         ip_address := some "192.168.1.7", subnet_mask := some "255.255.0.0",
         ipv6_address := some "fe80::7", ifname := some "ens3" }] with
    net :=
      { hostname := some "other", gateway := some "192.168.1.1", dns_ip1 := none,
        dns_ip2 := none,
        interfaces :=
          [{ example_if with
             ip_address := some "192.168.1.7", subnet_mask := some "255.255.0.0",
             ipv6_address := some "fe80::7", ifname := some "ens3" }] } }

/-- An example environment of the builder whose template has lines with surrounding
whitespace, a trailing comment, an empty line and a comment line. -/
def example_builder_env_spaces : BuilderEnv :=
  { example_builder_env with
    cc_oci_file_to_strv := fun file =>
      if file = some "/etc/cc-oci-runtime/hypervisor.args" then
        some ["/usr/bin/qemu-lite", "  -m 1G  # memory", "", "# comment", "\t-nographic "]
      else none }

/-- An example environment of the builder whose template has a line that is only a
comment behind a space and a line of two spaces. -/
def example_builder_env_blank : BuilderEnv :=
  { example_builder_env with
    cc_oci_file_to_strv := fun file =>
      if file = some "/etc/cc-oci-runtime/hypervisor.args" then
        some ["/usr/bin/qemu-lite", " # comment", "  ", "-m 1G"]
      else none }

/-- The example environment of the builder with a helper
`cc_oci_get_bundlepath_file` that returns `NULL` for an empty bundle path, the case
the resolver guards against at lines 538-540. -/
def example_builder_env_null_helper : BuilderEnv :=
  { example_builder_env with
    cc_oci_get_bundlepath_file := fun bundle_path file =>
      if bundle_path = "" ∨ file = "" then none else some (bundle_path ++ "/" ++ file) }

/-- The example configuration without interfaces, with an empty bundle path. -/
def example_config_empty_bundle : cc_oci_config :=
  { example_config [] with bundle_path := some "" }

/-- Sixteen bytes as `uuid_generate_random` of libuuid returns them (a version 4
UUID): byte 6 has the version 4 in its high half, byte 8 starts with the variant
bits `10`. -/
def is_random_uuid (uuid : Nat → Nat) : Prop :=
  (∀ i, i < 16 → uuid i < 256) ∧ uuid 6 / 16 = 4 ∧ uuid 8 / 64 = 2

/-- The environment `example_env_replacing` with the bytes of the version 4 UUID
`00112233-4455-4677-8899-aabbccddeeff`. -/
def example_env_version4 : Env :=
  { example_env_replacing with uuid := fun i => if i = 6 then 70 else 17 * i }

/-! ## Helpers of the proofs -/

/-- The last character of `prev :: s`. -/
def last_char (prev : Char) : List Char → Char
  | [] => prev
  | c :: cs => last_char c cs

/-! ## Theorems -/

/-! ### Network parameter expander -/

/-- C1 (what the code does): with zero interfaces, `cc_oci_expand_network_cmdline`
called with all eight outputs absent sets the primary pair to `-net`/`none` and
returns at once, so the four secondary outputs are still absent. -/
theorem C1_no_interfaces_secondary_absent (config : cc_oci_config)
    (h : config.net.interfaces = []) :
    cc_oci_expand_network_cmdline config net_cmdline.absent =
      { netdev_option := some "-net", netdev_params := some "none",
        net_device_option := some "-net", net_device_params := some "none",
        netdev2_option := none, netdev2_params := none,
        net_device2_option := none, net_device2_params := none } := by
  simp [cc_oci_expand_network_cmdline, h, net_cmdline.absent]

/-- Witness of `C1_no_interfaces_secondary_absent` at the example configuration
without interfaces: the secondary backend option is absent, not `-net`. -/
theorem C1_no_interfaces_secondary_absent_witness :
    (example_config []).net.interfaces = [] ∧
    (cc_oci_expand_network_cmdline (example_config []) net_cmdline.absent).netdev2_option
      = none ∧
    (cc_oci_expand_network_cmdline (example_config []) net_cmdline.absent).netdev2_option
      ≠ some "-net" := by
  have h := C1_no_interfaces_secondary_absent (example_config []) rfl
  refine ⟨rfl, ?_, ?_⟩ <;> simp [h]

/-- C2: when the first interface has IPv4 address `a`, mask `m` and name `n`, with
gateway `g` and hostname `h`, the kernel IP parameter is
`ip=a::g:m:h:n:off::`, whatever the interface's IPv6 address and whatever the
later interfaces. -/
theorem C2_kernel_cmdline_ipv4 (config : cc_oci_config) (if_cfg : cc_oci_net_if_cfg)
    (rest : List cc_oci_net_if_cfg) (a g m h n : String)
    (hif : config.net.interfaces = if_cfg :: rest)
    (ha : if_cfg.ip_address = some a) (hm : if_cfg.subnet_mask = some m)
    (hn : if_cfg.ifname = some n)
    (hg : config.net.gateway = some g) (hh : config.net.hostname = some h) :
    cc_oci_expand_net_kernel_cmdline config =
      "ip=" ++ a ++ "::" ++ g ++ ":" ++ m ++ ":" ++ h ++ ":" ++ n ++ ":off::" := by
  simp [cc_oci_expand_net_kernel_cmdline, hif, ha, hm, hn, hg, hh, fmt_s]

/-- Witness of `C2_kernel_cmdline_ipv4`: the example of the specification, with an
IPv6 address added to the interface. -/
theorem C2_kernel_cmdline_ipv4_witness :
    cc_oci_expand_net_kernel_cmdline
        (example_config [{ example_if with ipv6_address := some "fe80::2" }, example_if2])
      = "ip=10.0.2.15::10.0.2.2:255.255.255.0:vm1:eth0:off::" :=
  C2_kernel_cmdline_ipv4
    (example_config [{ example_if with ipv6_address := some "fe80::2" }, example_if2])
    { example_if with ipv6_address := some "fe80::2" } [example_if2]
    "10.0.2.15" "10.0.2.2" "255.255.255.0" "vm1" "eth0" rfl rfl rfl rfl rfl rfl

/-- C3: with two or more interfaces (and the secondary option absent on entry, as
in the only call), the primary pair is built from entry 0 and the secondary pair
from entry 1; the result mentions neither the later entries nor any other field
of the configuration, so lists that agree on their first two entries give the same
eight outputs. -/
theorem C3_two_or_more_interfaces (config : cc_oci_config) (out : net_cmdline)
    (if0 if1 : cc_oci_net_if_cfg) (rest : List cc_oci_net_if_cfg)
    (hif : config.net.interfaces = if0 :: if1 :: rest)
    (hout : out.netdev2_option = none) :
    cc_oci_expand_network_cmdline config out =
      { netdev_option := some "-netdev",
        netdev_params := some (cc_oci_expand_netdev_cmdline if0),
        net_device_option := some "-device",
        net_device_params := some (cc_oci_expand_net_device_cmdline if0),
        netdev2_option := some "-netdev",
        netdev2_params := some (cc_oci_expand_netdev_cmdline if1),
        net_device2_option := some "-device",
        net_device2_params := some (cc_oci_expand_net_device_cmdline if1) } := by
  simp [cc_oci_expand_network_cmdline, hif, network_loop, hout]

/-- Witness of `C3_two_or_more_interfaces`: three interfaces and four interfaces
with the same first two give the same outputs, those of the first two. -/
theorem C3_two_or_more_interfaces_witness :
    cc_oci_expand_network_cmdline
        (example_config [example_if, example_if2, { example_if with tap_device := some "tap9" }])
        net_cmdline.absent
      = cc_oci_expand_network_cmdline
        (example_config [example_if, example_if2, example_if2, example_if])
        net_cmdline.absent := by
  rw [C3_two_or_more_interfaces _ net_cmdline.absent example_if example_if2
        [{ example_if with tap_device := some "tap9" }] rfl rfl,
      C3_two_or_more_interfaces _ net_cmdline.absent example_if example_if2
        [example_if2, example_if] rfl rfl]

/-- C4: with exactly one interface (and the secondary option absent on entry), the
primary options are `-netdev` and `-device` with the parameters of that interface,
and the secondary pair is the disabled form `-net`/`none`. -/
theorem C4_one_interface (config : cc_oci_config) (out : net_cmdline)
    (if0 : cc_oci_net_if_cfg)
    (hif : config.net.interfaces = [if0])
    (hout : out.netdev2_option = none) :
    cc_oci_expand_network_cmdline config out =
      { netdev_option := some "-netdev",
        netdev_params := some (cc_oci_expand_netdev_cmdline if0),
        net_device_option := some "-device",
        net_device_params := some (cc_oci_expand_net_device_cmdline if0),
        netdev2_option := some "-net",
        netdev2_params := some "none",
        net_device2_option := some "-net",
        net_device2_params := some "none" } := by
  simp [cc_oci_expand_network_cmdline, hif, network_loop, hout]

/-- Witness of `C4_one_interface` at the example interface. -/
theorem C4_one_interface_witness :
    cc_oci_expand_network_cmdline (example_config [example_if]) net_cmdline.absent =
      { netdev_option := some "-netdev",
        netdev_params := some "tap,ifname=tap0,script=no,downscript=no,id=tap0",
        net_device_option := some "-device",
        net_device_params := some "driver=virtio-net,netdev=tap0",
        netdev2_option := some "-net",
        netdev2_params := some "none",
        net_device2_option := some "-net",
        net_device2_params := some "none" } :=
  C4_one_interface (example_config [example_if]) net_cmdline.absent example_if rfl rfl

/-- C5: for an interface with tap device name `t`, the backend parameters are
`tap,ifname=t,script=no,downscript=no,id=t`; the device parameters are
`driver=virtio-net,netdev=t` when the MAC is absent and
`driver=virtio-net,netdev=t,mac=M` when the MAC is `M`. -/
theorem C5_netdev_and_device_params (if_cfg : cc_oci_net_if_cfg) (t : String)
    (ht : if_cfg.tap_device = some t) :
    cc_oci_expand_netdev_cmdline if_cfg
        = "tap,ifname=" ++ t ++ ",script=no,downscript=no,id=" ++ t ∧
    (if_cfg.mac_address = none →
      cc_oci_expand_net_device_cmdline if_cfg = "driver=virtio-net,netdev=" ++ t) ∧
    (∀ M : String, if_cfg.mac_address = some M →
      cc_oci_expand_net_device_cmdline if_cfg
        = "driver=virtio-net,netdev=" ++ t ++ ",mac=" ++ M) := by
  refine ⟨?_, ?_, ?_⟩
  · simp [cc_oci_expand_netdev_cmdline, ht, fmt_s]
  · intro hmac
    simp [cc_oci_expand_net_device_cmdline, ht, hmac, fmt_s]
  · intro M hmac
    simp [cc_oci_expand_net_device_cmdline, ht, hmac, fmt_s]

/-- Witness of `C5_netdev_and_device_params`: `tap0` without MAC, and `tap1` with
a MAC. -/
theorem C5_netdev_and_device_params_witness :
    cc_oci_expand_netdev_cmdline example_if
        = "tap,ifname=tap0,script=no,downscript=no,id=tap0" ∧
    cc_oci_expand_net_device_cmdline example_if = "driver=virtio-net,netdev=tap0" ∧
    cc_oci_expand_net_device_cmdline example_if2
        = "driver=virtio-net,netdev=tap1,mac=02:00:ca:fe:00:01" :=
  ⟨(C5_netdev_and_device_params example_if "tap0" rfl).1,
   (C5_netdev_and_device_params example_if "tap0" rfl).2.1 rfl,
   (C5_netdev_and_device_params example_if2 "tap1" rfl).2.2 "02:00:ca:fe:00:01" rfl⟩

/-- C6: with zero interfaces and hostname `h`, the kernel IP parameter is
`ip=::::h::off::`; hence two configurations without interfaces and with the same
hostname give the same parameter, whatever their gateway and DNS values. -/
theorem C6_kernel_cmdline_no_interfaces (config : cc_oci_config) (h : String)
    (hif : config.net.interfaces = []) (hh : config.net.hostname = some h) :
    cc_oci_expand_net_kernel_cmdline config = "ip=::::" ++ h ++ "::off::" ∧
    ∀ other : cc_oci_config, other.net.interfaces = [] →
      other.net.hostname = some h →
      cc_oci_expand_net_kernel_cmdline other = cc_oci_expand_net_kernel_cmdline config := by
  refine ⟨?_, ?_⟩
  · simp [cc_oci_expand_net_kernel_cmdline, hif, hh, fmt_s]
  · intro other hoif hoh
    simp [cc_oci_expand_net_kernel_cmdline, hif, hh, hoif, hoh]

/-- Witness of `C6_kernel_cmdline_no_interfaces` at the example configuration
without interfaces. -/
theorem C6_kernel_cmdline_no_interfaces_witness :
    cc_oci_expand_net_kernel_cmdline (example_config []) = "ip=::::vm1::off::" :=
  (C6_kernel_cmdline_no_interfaces (example_config []) "vm1" rfl rfl).1

/-! ### Comment handling -/

/-- A window at least as long as the string: the scan finds the first `#`, or
there is none. -/
theorem g_strstr_len_scan_hash (s : List Char) :
    ∀ positions : Nat, s.length ≤ positions →
      (g_strstr_len_scan ['#'] s positions = none ∧ '#' ∉ s) ∨
      ∃ p q : List Char, s = p ++ '#' :: q ∧ '#' ∉ p ∧
        g_strstr_len_scan ['#'] s positions = some p.length := by
  induction s with
  | nil => intro positions _; left; simp [g_strstr_len_scan]
  | cons c cs ih =>
    intro positions hlen
    cases positions with
    | zero => simp at hlen
    | succ n =>
      have hn : cs.length ≤ n := by simpa using hlen
      by_cases hc : c = '#'
      · right
        refine ⟨[], cs, by simp [hc], by simp, ?_⟩
        simp [g_strstr_len_scan, hc]
      · rcases ih n hn with ⟨hnone, hnot⟩ | ⟨p, q, hs, hp, hfound⟩
        · left
          refine ⟨?_, ?_⟩
          · simp [g_strstr_len_scan, hc, hnone]
          · simp [hnot, Ne.symm hc]
        · right
          refine ⟨c :: p, q, by simp [hs], by simp [hp, Ne.symm hc], ?_⟩
          simp [g_strstr_len_scan, hc, hfound]

/-- The bounded search of `g_strstr_len` on a string of at most `LINE_MAX`
characters. -/
theorem g_strstr_len_hash (s : List Char) (h : s.length ≤ LINE_MAX) :
    (g_strstr_len s LINE_MAX ['#'] = none ∧ '#' ∉ s) ∨
    ∃ p q : List Char, s = p ++ '#' :: q ∧ '#' ∉ p ∧
      g_strstr_len s LINE_MAX ['#'] = some p.length := by
  have := g_strstr_len_scan_hash s LINE_MAX h
  simpa [g_strstr_len, LINE_MAX] using this

/-- The reference leaves a part without `#` as it is and goes on after it. -/
theorem cut_at_comment_append (p t : List Char) :
    ∀ prev : Char, '#' ∉ p →
      cut_at_comment prev (p ++ t) = p ++ cut_at_comment (last_char prev p) t := by
  induction p with
  | nil => intro prev _; simp [last_char]
  | cons c cs ih =>
    intro prev hp
    have hc : c ≠ '#' := fun h => hp (by simp [h])
    have hcs : '#' ∉ cs := fun h => hp (by simp [h])
    simp [cut_at_comment, hc, ih c hcs, last_char]

/-- The reference leaves a part without `#` unchanged. -/
theorem cut_at_comment_no_hash (p : List Char) (prev : Char) (hp : '#' ∉ p) :
    cut_at_comment prev p = p := by
  have := cut_at_comment_append p [] prev hp
  simpa [cut_at_comment] using this


/-- The last character of a string that continues with `c :: q` is that of `c :: q`. -/
theorem last_char_append (p : List Char) :
    ∀ (prev c : Char) (q : List Char), last_char prev (p ++ c :: q) = last_char c q := by
  induction p with
  | nil => intro prev c q; simp [last_char]
  | cons a p ih => intro prev c q; simpa [last_char] using ih a c q

/-- Reading `*(ptr-1)` where `ptr` points just after the non-empty part `c :: p`. -/
theorem get_before (p : List Char) :
    ∀ (c : Char) (t : List Char), (c :: p ++ t).get? p.length = some (last_char c p) := by
  induction p with
  | nil => intro c t; simp [last_char]
  | cons a p ih => intro c t; simpa [last_char] using ih a t

/-- The loop started at a `#` that follows the non-empty part `c :: p`, on a line
of at most `LINE_MAX` characters, with fuel for the rest of the line: it returns the
part before the `#` followed by what the reference makes of the rest. -/
theorem comment_loop_spec (fuel : Nat) :
    ∀ (c : Char) (p q : List Char),
      (c :: p ++ '#' :: q).length ≤ LINE_MAX → q.length < fuel →
      comment_loop (c :: p ++ '#' :: q) fuel (some (p.length + 1)) =
        some (c :: p ++ cut_at_comment (last_char c p) ('#' :: q)) := by
  induction fuel with
  | zero => intro c p q _ hq; simp at hq
  | succ fuel ih =>
    intro c p q hlen hq
    have hget : (c :: p ++ '#' :: q).get? p.length = some (last_char c p) :=
      get_before p c ('#' :: q)
    have htake : (c :: p ++ '#' :: q).take (p.length + 1) = c :: p := by
      simp
    have hdrop : (c :: p ++ '#' :: q).drop (p.length + 1 + 1) = q := by
      have : (c :: p ++ '#' :: q) = (c :: p ++ ['#']) ++ q := by simp
      rw [this]
      have hl : (c :: p ++ ['#']).length = p.length + 1 + 1 := by simp
      rw [← hl, List.drop_left]
    by_cases hsp : g_ascii_isspace (last_char c p) = true
    · rw [comment_loop]
      simp only [Nat.add_one_ne_zero, if_false, Nat.add_sub_cancel, hget, hsp, if_true, htake]
      simp [cut_at_comment, hsp]
    · rw [comment_loop]
      simp only [Nat.add_one_ne_zero, if_false, Nat.add_sub_cancel, hget, hsp, hdrop]
      have hqlen : q.length ≤ LINE_MAX := by
        simp at hlen; omega
      rcases g_strstr_len_hash q hqlen with ⟨hnone, hnot⟩ | ⟨p2, q2, hq2, hp2, hfound⟩
      · rw [hnone]
        simp [comment_loop, cut_at_comment, hsp, cut_at_comment_no_hash q '#' hnot]
      · rw [hfound]
        subst hq2
        have hlen2 : (c :: (p ++ '#' :: p2) ++ '#' :: q2).length ≤ LINE_MAX := by
          simpa using hlen
        have hfuel2 : q2.length < fuel := by
          simp at hq; omega
        have h := ih c (p ++ '#' :: p2) q2 hlen2 hfuel2
        have e1 : (c :: (p ++ '#' :: p2) ++ '#' :: q2) = (c :: p ++ '#' :: (p2 ++ '#' :: q2)) := by
          simp
        have e2 : (p ++ '#' :: p2).length + 1 = p2.length + (p.length + 1 + 1) := by
          simp; omega
        rw [e1, e2] at h
        simp only [Option.map_some']
        rw [h]
        simp [cut_at_comment, hsp, cut_at_comment_append p2 ('#' :: q2) '#' hp2,
          last_char_append]

/-- On a line of at most `LINE_MAX` characters that does not start with `#`, the
scan gives what the reference gives. -/
theorem strip_trailing_comment_spec (c : Char) (cs : List Char) (hc : c ≠ '#')
    (hlen : (c :: cs).length ≤ LINE_MAX) :
    strip_trailing_comment (c :: cs) = some (c :: cut_at_comment c cs) := by
  unfold strip_trailing_comment
  rcases g_strstr_len_hash (c :: cs) hlen with ⟨hnone, hnot⟩ | ⟨p, q, hs, hp, hfound⟩
  · have hcs : '#' ∉ cs := fun h => hnot (by simp [h])
    rw [hnone]
    cases hl : (c :: cs).length with
    | zero => simp at hl
    | succ n => simp [comment_loop, cut_at_comment_no_hash cs c hcs]
  · rw [hfound]
    cases p with
    | nil => simp at hs; exact absurd hs.1 hc
    | cons a p =>
      simp only [List.cons_append, List.cons.injEq] at hs
      obtain ⟨rfl, rfl⟩ := hs
      have hp2 : '#' ∉ p := fun h => hp (by simp [h])
      have h := comment_loop_spec (c :: p ++ '#' :: q).length c p q hlen (by simp; omega)
      simp only [List.cons_append] at h ⊢
      simp only [List.length_cons] at h ⊢
      rw [h, cut_at_comment_append p ('#' :: q) c hp2]

/-- The bounded search sees nothing beyond its window. -/
theorem g_strstr_len_scan_window (p : List Char) :
    ∀ t : List Char, '#' ∉ p → g_strstr_len_scan ['#'] (p ++ t) p.length = none := by
  induction p with
  | nil => intro t _; cases t <;> simp [g_strstr_len_scan]
  | cons c p ih =>
    intro t hp
    have hc : c ≠ '#' := fun h => hp (by simp [h])
    have hp2 : '#' ∉ p := fun h => hp (by simp [h])
    simp [g_strstr_len_scan, hc, ih t hp2]

/-- A line of `LINE_MAX` characters without `#` followed by anything is left whole:
the only search, the one of line 483, ends at its window. -/
theorem strip_comment_long (n : Nat) (t : List Char) (h : n + 2 = LINE_MAX) :
    strip_comment ⟨List.replicate (n + 1) 'a' ++ ' ' :: t⟩
      = some ⟨List.replicate (n + 1) 'a' ++ ' ' :: t⟩ := by
  have hno : '#' ∉ List.replicate (n + 1) 'a' ++ [' '] := by
    simp [List.mem_replicate]
  have hscan := g_strstr_len_scan_window (List.replicate (n + 1) 'a' ++ [' ']) t hno
  have hlen : (List.replicate (n + 1) 'a' ++ [' ']).length = LINE_MAX := by
    simp; omega
  rw [hlen] at hscan
  have hfind : g_strstr_len (List.replicate (n + 1) 'a' ++ ' ' :: t) LINE_MAX ['#'] = none := by
    have e : List.replicate (n + 1) 'a' ++ ' ' :: t = (List.replicate (n + 1) 'a' ++ [' ']) ++ t := by
      simp
    rw [e]
    simpa [g_strstr_len, LINE_MAX] using hscan
  have hhead : (List.replicate (n + 1) 'a' ++ ' ' :: t).head? ≠ some '#' := by
    simp [List.replicate_succ]
  simp only [strip_comment, hhead, if_false, strip_trailing_comment, hfind]
  cases (List.replicate (n + 1) 'a' ++ ' ' :: t).length <;> simp [comment_loop]

/-- The reference cuts a line of `a`s followed by a space and a `#` after the
space. -/
theorem comment_reference_long (n : Nat) (t : List Char) :
    comment_reference ⟨List.replicate (n + 1) 'a' ++ ' ' :: '#' :: t⟩
      = ⟨List.replicate (n + 1) 'a' ++ [' ']⟩ := by
  have hno : '#' ∉ List.replicate n 'a' ++ [' '] := by
    simp [List.mem_replicate]
  have e : List.replicate n 'a' ++ ' ' :: '#' :: t
      = (List.replicate n 'a' ++ [' ']) ++ '#' :: t := by simp
  simp only [comment_reference, List.replicate_succ, List.cons_append]
  rw [e, cut_at_comment_append _ _ 'a' hno, last_char_append]
  simp [cut_at_comment, last_char, g_ascii_isspace]

/-- C7 as stated fails on a long line: `long_line` has no `#` among its first
`LINE_MAX` characters, so the search of line 483 finds nothing and the line is left
whole, while the reference cuts it before its ` #c`. -/
theorem C7_long_line_counterexample :
    strip_comment long_line = some long_line ∧
    comment_reference long_line = ⟨List.replicate 2047 'a' ++ [' ']⟩ ∧
    strip_comment long_line ≠ some (comment_reference long_line) := by
  have h1 : strip_comment long_line = some long_line :=
    strip_comment_long 2046 ['#', 'c'] (by simp [LINE_MAX])
  have h2 : comment_reference long_line = ⟨List.replicate 2047 'a' ++ [' ']⟩ :=
    comment_reference_long 2046 ['c']
  refine ⟨h1, h2, ?_⟩
  rw [h1, h2]
  intro h
  have h3 : List.replicate 2047 'a' ++ " #c".data = List.replicate 2047 'a' ++ [' '] :=
    congrArg String.data (Option.some.inj h)
  have h4 := List.append_cancel_left h3
  exact absurd h4 (by decide)

/-- C7 (amended): for every template line `L` of at most `LINE_MAX` characters,
comment handling gives the reference: the empty line when `L` starts with `#`;
otherwise `L` cut just before the first `#` that follows ASCII whitespace;
otherwise `L` itself.  In the loop over the lines, a line `L` that command
resolution leaves as it is and that starts with `#` is stored as the empty line
without any replacement, and any other such line is replaced by the result of the
replacements applied to the reference of `L`. -/
theorem C7_strip_comment_eq_reference (L : String) (h : L.length ≤ LINE_MAX) :
    strip_comment L = some (comment_reference L) ∧
    ∀ (env : Env) (tags : List special_tag) (rest : List String) (count : Nat),
      resolve_command env count L = L →
      expand_args env tags (L :: rest) count =
        if L.data.head? = some '#' then
          (expand_args env tags rest (count + 1)).map fun r => (r.1, "" :: r.2)
        else
          match replace_tags env tags (comment_reference L) with
          | (false, arg) => some (false, arg :: rest)
          | (true, arg) =>
            (expand_args env tags rest (count + 1)).map fun r => (r.1, arg :: r.2) := by
  have hstrip : strip_comment L = some (comment_reference L) := by
    obtain ⟨l⟩ := L
    cases l with
    | nil => simp [strip_comment, comment_reference, strip_trailing_comment, comment_loop,
        g_strstr_len, g_strstr_len_scan]
    | cons c cs =>
      by_cases hc : c = '#'
      · simp [strip_comment, comment_reference, hc]
      · have hlen : (c :: cs).length ≤ LINE_MAX := h
        simp [strip_comment, comment_reference, hc, strip_trailing_comment_spec c cs hc hlen]
  refine ⟨hstrip, ?_⟩
  intro env tags rest count hres
  by_cases hhead : L.data.head? = some '#'
  · simp [expand_args, hres, hhead]
  · have htrail : strip_trailing_comment L.data = some (comment_reference L).data := by
      have := hstrip
      simp only [strip_comment, hhead, if_false] at this
      cases hs : strip_trailing_comment L.data with
      | none => rw [hs] at this; simp at this
      | some chars =>
        rw [hs] at this
        simp only [Option.map_some', Option.some.injEq] at this
        rw [← this]
    simp only [expand_args, hres, hhead, if_false, htrail]

/-- Witness of `C7_strip_comment_eq_reference`: the three lines of the claim. -/
theorem C7_strip_comment_eq_reference_witness :
    strip_comment "#x" = some "" ∧
    strip_comment "value#comment" = some "value#comment" ∧
    strip_comment "value #comment" = some "value " ∧
    g_strstrip "value " = "value" :=
  ⟨(C7_strip_comment_eq_reference "#x" (by decide)).1,
   (C7_strip_comment_eq_reference "value#comment" (by decide)).1,
   (C7_strip_comment_eq_reference "value #comment" (by decide)).1,
   by decide⟩

/-! ### Compaction pass -/

/-- The first loop counts the lines that are not empty. -/
theorem count_non_empty_eq (args : List String) :
    ∀ line_count : Nat,
      count_non_empty args line_count
        = line_count + (args.filter fun l => decide (l ≠ "")).length := by
  induction args with
  | nil => intro n; simp [count_non_empty]
  | cons arg rest ih =>
    intro n
    by_cases h : arg = ""
    · rw [List.filter_cons_of_neg (by simp [h])]
      simp [count_non_empty, h, ih]
    · rw [List.filter_cons_of_pos (by simp [h])]
      simp only [count_non_empty, h, ne_eq, not_false_eq_true, if_true, ih, List.length_cons]
      omega

/-- Storing at the first free entry of the new vector. -/
theorem set_first_free (done : List String) (x : String) (m : Nat) :
    (done.map some ++ List.replicate (m + 1) none).set done.length (some x)
      = (done ++ [x]).map some ++ List.replicate m none := by
  induction done with
  | nil => simp [List.replicate_succ]
  | cons d ds ih => simpa using ih

/-- The second loop, started with `done` already stored and enough free entries,
appends the stripped non-empty lines in their order. -/
theorem copy_non_empty_eq (args : List String) :
    ∀ (done : List String) (m : Nat),
      (args.filter fun l => decide (l ≠ "")).length ≤ m →
      copy_non_empty args (done.map some ++ List.replicate m none) done.length
        = (done ++ (args.filter fun l => decide (l ≠ "")).map g_strstrip).map some
          ++ List.replicate (m - (args.filter fun l => decide (l ≠ "")).length) none := by
  induction args with
  | nil => intro done m _; simp [copy_non_empty]
  | cons arg rest ih =>
    intro done m hm
    by_cases h : arg = ""
    · rw [List.filter_cons_of_neg (by simp [h])] at hm ⊢
      simp only [copy_non_empty, h, ne_eq, not_true_eq_false, if_false]
      exact ih done m hm
    · rw [List.filter_cons_of_pos (by simp [h])] at hm ⊢
      simp only [List.length_cons] at hm
      obtain ⟨k, rfl⟩ : ∃ k, m = k + 1 := ⟨m - 1, by omega⟩
      have hk : (rest.filter fun l => decide (l ≠ "")).length ≤ k := by omega
      have := ih (done ++ [g_strstrip arg]) k hk
      simp only [copy_non_empty, h, ne_eq, not_false_eq_true, if_true, set_first_free]
      simp only [List.length_append, List.length_singleton] at this
      rw [this]
      simp only [List.length_cons, Nat.add_sub_add_right, List.map_cons, List.append_assoc,
        List.singleton_append]

/-- Reading a vector whose entries are all present up to the first `NULL`. -/
theorem strv_map_some (l : List String) (m : Nat) :
    strv (l.map some ++ List.replicate (m + 1) none) = l := by
  induction l with
  | nil => simp [strv, List.replicate_succ]
  | cons a l ih => simp [strv, ih]

/-- The compaction pass in closed form. -/
theorem compact_args_eq (args : List String) :
    compact_args args = (args.filter fun l => decide (l ≠ "")).map g_strstrip := by
  have h := copy_non_empty_eq args [] (count_non_empty args 0 + 1)
    (by rw [count_non_empty_eq]; omega)
  simp only [List.map_nil, List.nil_append, List.length_nil] at h
  simp only [compact_args]
  rw [h, count_non_empty_eq]
  have e : 0 + (args.filter fun l => decide (l ≠ "")).length + 1
      - (args.filter fun l => decide (l ≠ "")).length = 0 + 1 := by omega
  rw [e]
  exact strv_map_some _ 0

/-- The first element left by `dropWhile` does not satisfy the test. -/
theorem head_dropWhile_false (p : Char → Bool) (l : List Char) (c : Char)
    (h : (l.dropWhile p).head? = some c) : p c = false := by
  induction l with
  | nil => simp at h
  | cons a l ih =>
    by_cases ha : p a = true
    · rw [List.dropWhile_cons_of_pos ha] at h
      exact ih h
    · rw [List.dropWhile_cons_of_neg ha] at h
      simp only [List.head?_cons, Option.some.injEq] at h
      subst h
      simpa using ha

/-- Every element taken by `takeWhile` satisfies the test. -/
theorem mem_takeWhile_true (p : Char → Bool) (l : List Char) (c : Char)
    (h : c ∈ l.takeWhile p) : p c = true := by
  induction l with
  | nil => simp at h
  | cons a l ih =>
    by_cases ha : p a = true
    · rw [List.takeWhile_cons_of_pos ha] at h
      rcases List.mem_cons.mp h with rfl | h
      · exact ha
      · exact ih h
    · rw [List.takeWhile_cons_of_neg ha] at h
      simp at h

/-- What `g_strstrip` removes is whitespace at both ends, and it leaves none there. -/
theorem g_strstrip_spec (s : String) :
    ∃ pre suf : List Char,
      s.data = pre ++ (g_strstrip s).data ++ suf ∧
      (∀ c ∈ pre, g_ascii_isspace c = true) ∧ (∀ c ∈ suf, g_ascii_isspace c = true) ∧
      (∀ c, (g_strstrip s).data.head? = some c → g_ascii_isspace c = false) ∧
      (∀ c, (g_strstrip s).data.getLast? = some c → g_ascii_isspace c = false) := by
  have hsplit : s.data = s.data.takeWhile g_ascii_isspace ++ g_strchug s.data :=
    (List.takeWhile_append_dropWhile g_ascii_isspace s.data).symm
  have hsplit2 : g_strchug s.data
      = g_strchomp (g_strchug s.data)
        ++ ((g_strchug s.data).reverse.takeWhile g_ascii_isspace).reverse := by
    have h := List.takeWhile_append_dropWhile g_ascii_isspace (g_strchug s.data).reverse
    have h2 := congrArg List.reverse h
    simp only [List.reverse_append, List.reverse_reverse] at h2
    exact h2.symm
  refine ⟨s.data.takeWhile g_ascii_isspace,
    ((g_strchug s.data).reverse.takeWhile g_ascii_isspace).reverse, ?_, ?_, ?_, ?_, ?_⟩
  · show s.data = _ ++ g_strchomp (g_strchug s.data) ++ _
    rw [List.append_assoc, ← hsplit2, ← hsplit]
  · intro c hc
    exact mem_takeWhile_true _ _ c hc
  · intro c hc
    exact mem_takeWhile_true _ _ c (List.mem_reverse.mp hc)
  · intro c hc
    change (g_strchomp (g_strchug s.data)).head? = some c at hc
    apply head_dropWhile_false g_ascii_isspace s.data c
    show (g_strchug s.data).head? = some c
    rw [hsplit2]
    cases hres : g_strchomp (g_strchug s.data) with
    | nil => rw [hres] at hc; simp at hc
    | cons a l => rw [hres] at hc; simpa using hc
  · intro c hc
    change (g_strchomp (g_strchug s.data)).getLast? = some c at hc
    apply head_dropWhile_false g_ascii_isspace (g_strchug s.data).reverse c
    simpa [g_strchomp, List.getLast?_reverse] using hc

/-- C9 (what the code does): a line made of one space is not empty, so it is kept
and stripped to the empty string; a second pass drops that empty string.  The pass
is not idempotent on the vector `[" "]`. -/
theorem C9_compaction_not_idempotent :
    compact_args [" "] = [""] ∧
    compact_args (compact_args [" "]) = [] ∧
    compact_args (compact_args [" "]) ≠ compact_args [" "] := by
  decide

/-! ### Path validation -/

/-- C10 (what the code does): `g_file_test` with the two bits
`G_FILE_TEST_EXISTS|G_FILE_TEST_IS_DIR` is true for every existing file, directory
or not; so with a root path that names an existing regular file (not a directory)
`cc_oci_expand_cmdline` passes the check of lines 318-323 and returns `true`. -/
theorem C10_root_regular_file_accepted :
    (∀ (fs : String → Option file_stat) (path : String),
      g_file_test fs path [GFileTest.G_FILE_TEST_EXISTS, GFileTest.G_FILE_TEST_IS_DIR]
        = (fs path).isSome) ∧
    (example_env false).fs (example_config [example_if]).oci.root_path
      = some { is_dir := false, st_size := 3 } ∧
    g_file_test (example_env false).fs (example_config [example_if]).oci.root_path
      [GFileTest.G_FILE_TEST_IS_DIR] = false ∧
    (cc_oci_expand_cmdline (example_env false) (some (example_config [example_if]))
        (some ["/usr/bin/qemu-lite", "-m 1G", "# memory"])).map (fun r => (r.ret, r.args))
      = some (true, some ["/usr/bin/qemu-lite", "-m 1G", ""]) := by
  refine ⟨?_, by decide, by decide, by decide⟩
  intro fs path
  cases h : fs path with
  | none => simp [g_file_test, h]
  | some st => simp [g_file_test, h]

/-- A failed precondition of `cc_oci_expand_cmdline` (lines 288-323) makes it return
`false` with the configuration and the argument list as they were and no symbolic
link created. -/
theorem expand_cmdline_precondition_failure (env : Env) (config : Option cc_oci_config)
    (args : Option (List String))
    (h : config = none ∨ args = none ∨
      ∃ c, config = some c ∧
        (c.vm = none ∨ c.bundle_path = none ∨
          ∃ vm, c.vm = some vm ∧
            (vm.image_path = "" ∨ env.fs vm.image_path = none ∨
             vm.kernel_path = "" ∨ env.fs vm.kernel_path = none ∨
             c.oci.root_path = "" ∨ env.fs c.oci.root_path = none))) :
    cc_oci_expand_cmdline env config args =
      some { ret := false, config := config, args := args, symlinks := [] } := by
  rcases h with rfl | rfl | ⟨c, rfl, h⟩
  · simp [cc_oci_expand_cmdline]
  · cases config <;> simp [cc_oci_expand_cmdline]
  · cases args with
    | none => simp [cc_oci_expand_cmdline]
    | some args =>
      cases hvm : c.vm with
      | none => simp [cc_oci_expand_cmdline, hvm]
      | some vm =>
        cases hb : c.bundle_path with
        | none => simp [cc_oci_expand_cmdline, hvm, hb]
        | some b =>
          rcases h with h | h | ⟨vm2, hvm2, h⟩
          · rw [hvm] at h; simp at h
          · rw [hb] at h; simp at h
          · rw [hvm] at hvm2
            obtain rfl : vm = vm2 := Option.some.inj hvm2
            by_cases hi : vm.image_path = ""
            · simp [cc_oci_expand_cmdline, hvm, hb, hi]
            · cases hfi : env.fs vm.image_path with
              | none => simp [cc_oci_expand_cmdline, hvm, hb, hi, hfi]
              | some st =>
                by_cases hk : vm.kernel_path = ""
                · simp [cc_oci_expand_cmdline, hvm, hb, hi, hfi, hk]
                · cases hfk : env.fs vm.kernel_path with
                  | none => simp [cc_oci_expand_cmdline, hvm, hb, hi, hfi, hk, hfk, g_file_test]
                  | some stk =>
                    by_cases hr : c.oci.root_path = ""
                    · simp [cc_oci_expand_cmdline, hvm, hb, hi, hfi, hk, hfk, hr, g_file_test]
                    · cases hfr : env.fs c.oci.root_path with
                      | none =>
                        simp [cc_oci_expand_cmdline, hvm, hb, hi, hfi, hk, hfk, hr, hfr,
                          g_file_test]
                      | some str =>
                        rcases h with h | h | h | h | h | h
                        · exact absurd h hi
                        · rw [hfi] at h; simp at h
                        · exact absurd h hk
                        · rw [hfk] at h; simp at h
                        · exact absurd h hr
                        · rw [hfr] at h; simp at h

/-! ### Argument builder and template source resolver -/

/-- C11 as stated fails: with an image path that names no file and a template in
`sysconfdir`, the builder returns `false` only after two existence checks of
template candidates and the read of the template; the call of
`cc_oci_expand_cmdline`, which validates the paths, comes last. -/
theorem C11_template_io_precedes_validation :
    example_builder_env.fs "/no-image" = none ∧
    (cc_oci_vm_args_get example_builder_env (some example_config_no_image) true).map
        (fun r => (r.ret, r.trace))
      = some (false,
          [io_event.template_exists "/bundle/hypervisor.args",
           io_event.template_exists "/etc/cc-oci-runtime/hypervisor.args",
           io_event.template_read (some "/etc/cc-oci-runtime/hypervisor.args"),
           io_event.expand_cmdline]) := by
  decide

/-- The template lookup performs existence checks and nothing else. -/
theorem vm_args_file_path_trace (env : BuilderEnv) (config : Option cc_oci_config) :
    ∀ e ∈ (cc_oci_vm_args_file_path env config).2, ∃ path, e = io_event.template_exists path := by
  intro e he
  cases config with
  | none => simp [cc_oci_vm_args_file_path] at he
  | some config =>
    cases hb : config.bundle_path with
    | none => simp [cc_oci_vm_args_file_path, hb] at he
    | some b =>
      cases hp : env.cc_oci_get_bundlepath_file b env.CC_OCI_HYPERVISOR_CMDLINE_FILE with
      | none => simp [cc_oci_vm_args_file_path, hb, hp] at he
      | some p1 =>
        by_cases h1 : g_file_test env.fs p1 [GFileTest.G_FILE_TEST_EXISTS] = true
        · simp [cc_oci_vm_args_file_path, hb, hp, h1] at he
          exact ⟨_, he⟩
        · by_cases h2 : g_file_test env.fs
              (env.g_build_path env.sysconfdir env.CC_OCI_HYPERVISOR_CMDLINE_FILE)
              [GFileTest.G_FILE_TEST_EXISTS] = true
          · simp [cc_oci_vm_args_file_path, hb, hp, h1, h2] at he
            rcases he with rfl | rfl <;> exact ⟨_, rfl⟩
          · by_cases h3 : g_file_test env.fs
                (env.g_build_path env.defaultsdir env.CC_OCI_HYPERVISOR_CMDLINE_FILE)
                [GFileTest.G_FILE_TEST_EXISTS] = true
            · simp [cc_oci_vm_args_file_path, hb, hp, h1, h2, h3] at he
              rcases he with rfl | rfl | rfl <;> exact ⟨_, rfl⟩
            · simp [cc_oci_vm_args_file_path, hb, hp, h1, h2, h3] at he
              rcases he with rfl | rfl | rfl <;> exact ⟨_, rfl⟩

/-- C11 (amended): when the image path, the kernel path or the root path is empty
or names no file, every run of the builder that reaches the path validations (the
template was read, giving `lines`) returns `false` with the lines as read, and the
existence checks of `cc_oci_vm_args_file_path` (the first one being that of the
bundle's candidate) and the read of the template come before the call of
`cc_oci_expand_cmdline` that validates the paths.  The validations run only when
the read succeeded: on a run in which the read fails the builder returns `false`
right after the read, without calling `cc_oci_expand_cmdline`. -/
theorem C11_validation_failure_after_template_io (env : BuilderEnv) (config : cc_oci_config)
    (vm : cc_oci_vm_cfg) (lines : List String)
    (hvm : config.vm = some vm)
    (hread : env.cc_oci_file_to_strv (cc_oci_vm_args_file_path env (some config)).1
      = some lines)
    (hbad : vm.image_path = "" ∨ env.fs vm.image_path = none ∨
      vm.kernel_path = "" ∨ env.fs vm.kernel_path = none ∨
      config.oci.root_path = "" ∨ env.fs config.oci.root_path = none) :
    cc_oci_vm_args_get env (some config) true =
      some { ret := false, args := some lines, config := some config, symlinks := [],
             trace := (cc_oci_vm_args_file_path env (some config)).2
               ++ [io_event.template_read (cc_oci_vm_args_file_path env (some config)).1,
                   io_event.expand_cmdline] } ∧
    (∀ b p1 : String, config.bundle_path = some b →
      env.cc_oci_get_bundlepath_file b env.CC_OCI_HYPERVISOR_CMDLINE_FILE = some p1 →
      (cc_oci_vm_args_file_path env (some config)).2.head?
        = some (io_event.template_exists p1)) ∧
    ∀ (env2 : BuilderEnv) (config2 : cc_oci_config),
      env2.cc_oci_file_to_strv (cc_oci_vm_args_file_path env2 (some config2)).1 = none →
      cc_oci_vm_args_get env2 (some config2) true =
        some { ret := false, args := none, config := some config2, symlinks := [],
               trace := (cc_oci_vm_args_file_path env2 (some config2)).2
                 ++ [io_event.template_read
                       (cc_oci_vm_args_file_path env2 (some config2)).1] } ∧
      io_event.expand_cmdline ∉ (cc_oci_vm_args_file_path env2 (some config2)).2
        ++ [io_event.template_read (cc_oci_vm_args_file_path env2 (some config2)).1] := by
  have hfail := expand_cmdline_precondition_failure env.toEnv (some config) (some lines)
    (Or.inr (Or.inr ⟨config, rfl, Or.inr (Or.inr ⟨vm, hvm, hbad⟩)⟩))
  refine ⟨by simp [cc_oci_vm_args_get, hread, hfail], ?_, ?_⟩
  · intro b p1 hb hp1
    simp only [cc_oci_vm_args_file_path, hb, hp1]
    split
    · rfl
    · split
      · rfl
      · split <;> rfl
  · intro env2 config2 hnone
    refine ⟨by simp [cc_oci_vm_args_get, hnone], ?_⟩
    intro hmem
    rcases List.mem_append.mp hmem with h | h
    · obtain ⟨path, hp⟩ := vm_args_file_path_trace env2 (some config2) _ h
      exact absurd hp (by simp)
    · simp at h

/-- Witness of `C11_validation_failure_after_template_io`: the example with an
image path that names no file. -/
theorem C11_validation_failure_after_template_io_witness :
    cc_oci_vm_args_get example_builder_env (some example_config_no_image) true =
      some { ret := false, args := some ["/usr/bin/qemu-lite", "-m 1G", "# memory"],
             config := some example_config_no_image, symlinks := [],
             trace := (cc_oci_vm_args_file_path example_builder_env
                 (some example_config_no_image)).2
               ++ [io_event.template_read (cc_oci_vm_args_file_path example_builder_env
                     (some example_config_no_image)).1,
                   io_event.expand_cmdline] } :=
  (C11_validation_failure_after_template_io example_builder_env example_config_no_image
    { image_path := "/no-image", kernel_path := "/vmlinux", kernel_params := some "quiet" }
    ["/usr/bin/qemu-lite", "-m 1G", "# memory"] rfl (by decide)
    (Or.inr (Or.inl (by decide)))).1

/-- C12: when the configuration or the argument list is absent, the VM descriptor or
the bundle path is absent, the image path is empty or names no file, or the kernel
path is empty or names no file, `cc_oci_expand_cmdline` returns `false`, leaves the
argument list and the configuration (so its `console` and `use_socket_console`) as
they were, and creates no symbolic link. -/
theorem C12_precondition_failure_atomic (env : Env) (config : Option cc_oci_config)
    (args : Option (List String))
    (h : config = none ∨ args = none ∨
      ∃ c, config = some c ∧
        (c.vm = none ∨ c.bundle_path = none ∨
          ∃ vm, c.vm = some vm ∧
            (vm.image_path = "" ∨ env.fs vm.image_path = none ∨
             vm.kernel_path = "" ∨ env.fs vm.kernel_path = none))) :
    cc_oci_expand_cmdline env config args =
      some { ret := false, config := config, args := args, symlinks := [] } := by
  apply expand_cmdline_precondition_failure
  rcases h with h | h | ⟨c, hc, h⟩
  · exact Or.inl h
  · exact Or.inr (Or.inl h)
  · refine Or.inr (Or.inr ⟨c, hc, ?_⟩)
    rcases h with h | h | ⟨vm, hvm, h⟩
    · exact Or.inl h
    · exact Or.inr (Or.inl h)
    · refine Or.inr (Or.inr ⟨vm, hvm, ?_⟩)
      rcases h with h | h | h | h
      · exact Or.inl h
      · exact Or.inr (Or.inl h)
      · exact Or.inr (Or.inr (Or.inl h))
      · exact Or.inr (Or.inr (Or.inr (Or.inl h)))

/-- Witness of `C12_precondition_failure_atomic`: a configuration without console
whose image path names no file, on a standard input that is no terminal (so that a
run past the validations would create the two links). -/
theorem C12_precondition_failure_atomic_witness :
    cc_oci_expand_cmdline { example_env true with isatty_stdin := false }
        (some { example_config_no_image with console := none })
        (some ["qemu-lite", "-m 1G #mem"]) =
      some { ret := false, config := some { example_config_no_image with console := none },
             args := some ["qemu-lite", "-m 1G #mem"], symlinks := [] } :=
  C12_precondition_failure_atomic { example_env true with isatty_stdin := false }
    (some { example_config_no_image with console := none })
    (some ["qemu-lite", "-m 1G #mem"])
    (Or.inr (Or.inr ⟨{ example_config_no_image with console := none }, rfl,
      Or.inr (Or.inr ⟨{ image_path := "/no-image", kernel_path := "/vmlinux",
                        kernel_params := some "quiet" }, rfl,
        Or.inr (Or.inl (by decide))⟩)⟩))

/-- C13 as stated fails: the configuration has a bundle path (the empty one), for
which the helper `cc_oci_get_bundlepath_file` returns `NULL`; the template of
`sysconfdir` exists, yet the resolver returns `NULL`, and it has checked no
candidate. -/
theorem C13_null_candidate_counterexample :
    example_config_empty_bundle.bundle_path = some "" ∧
    example_builder_env_null_helper.cc_oci_get_bundlepath_file ""
      example_builder_env_null_helper.CC_OCI_HYPERVISOR_CMDLINE_FILE = none ∧
    (example_builder_env_null_helper.fs
      (example_builder_env_null_helper.g_build_path
        example_builder_env_null_helper.sysconfdir
        example_builder_env_null_helper.CC_OCI_HYPERVISOR_CMDLINE_FILE)).isSome = true ∧
    cc_oci_vm_args_file_path example_builder_env_null_helper
      (some example_config_empty_bundle) = (none, []) := by
  decide

/-- C13 (amended): with a bundle path `b` for which `cc_oci_get_bundlepath_file`
gives the candidate `p1`, the resolver returns the first existing path among `p1`,
`sysconfdir/<template>` and `defaultsdir/<template>`, and `NULL` exactly when none
of the three exists; it returns `NULL` when the configuration or its bundle path
is absent, and also, without checking any candidate, when
`cc_oci_get_bundlepath_file` returns `NULL`. -/
theorem C13_template_path_priority (env : BuilderEnv) (config : cc_oci_config)
    (b p1 : String) (hb : config.bundle_path = some b)
    (hp1 : env.cc_oci_get_bundlepath_file b env.CC_OCI_HYPERVISOR_CMDLINE_FILE = some p1) :
    ((env.fs p1).isSome = true →
      (cc_oci_vm_args_file_path env (some config)).1 = some p1) ∧
    ((env.fs p1).isSome = false →
      (env.fs (env.g_build_path env.sysconfdir env.CC_OCI_HYPERVISOR_CMDLINE_FILE)).isSome
        = true →
      (cc_oci_vm_args_file_path env (some config)).1
        = some (env.g_build_path env.sysconfdir env.CC_OCI_HYPERVISOR_CMDLINE_FILE)) ∧
    ((env.fs p1).isSome = false →
      (env.fs (env.g_build_path env.sysconfdir env.CC_OCI_HYPERVISOR_CMDLINE_FILE)).isSome
        = false →
      (env.fs (env.g_build_path env.defaultsdir env.CC_OCI_HYPERVISOR_CMDLINE_FILE)).isSome
        = true →
      (cc_oci_vm_args_file_path env (some config)).1
        = some (env.g_build_path env.defaultsdir env.CC_OCI_HYPERVISOR_CMDLINE_FILE)) ∧
    ((cc_oci_vm_args_file_path env (some config)).1 = none ↔
      (env.fs p1).isSome = false ∧
      (env.fs (env.g_build_path env.sysconfdir env.CC_OCI_HYPERVISOR_CMDLINE_FILE)).isSome
        = false ∧
      (env.fs (env.g_build_path env.defaultsdir env.CC_OCI_HYPERVISOR_CMDLINE_FILE)).isSome
        = false) ∧
    (cc_oci_vm_args_file_path env none).1 = none ∧
    (∀ other : cc_oci_config, other.bundle_path = none →
      (cc_oci_vm_args_file_path env (some other)).1 = none) ∧
    (∀ (other : cc_oci_config) (b2 : String), other.bundle_path = some b2 →
      env.cc_oci_get_bundlepath_file b2 env.CC_OCI_HYPERVISOR_CMDLINE_FILE = none →
      cc_oci_vm_args_file_path env (some other) = (none, [])) := by
  have hex : ∀ p : String,
      g_file_test env.fs p [GFileTest.G_FILE_TEST_EXISTS] = (env.fs p).isSome := by
    intro p
    cases h : env.fs p <;> simp [g_file_test, h]
  refine ⟨?_, ?_, ?_, ?_, ?_, ?_, ?_⟩
  · intro h1
    simp [cc_oci_vm_args_file_path, hb, hp1, hex, h1]
  · intro h1 h2
    simp [cc_oci_vm_args_file_path, hb, hp1, hex, h1, h2]
  · intro h1 h2 h3
    simp [cc_oci_vm_args_file_path, hb, hp1, hex, h1, h2, h3]
  · cases h1 : (env.fs p1).isSome <;>
    cases h2 : (env.fs (env.g_build_path env.sysconfdir
        env.CC_OCI_HYPERVISOR_CMDLINE_FILE)).isSome <;>
    cases h3 : (env.fs (env.g_build_path env.defaultsdir
        env.CC_OCI_HYPERVISOR_CMDLINE_FILE)).isSome <;>
    simp [cc_oci_vm_args_file_path, hb, hp1, hex, h1, h2, h3]
  · simp [cc_oci_vm_args_file_path]
  · intro other ho
    simp [cc_oci_vm_args_file_path, ho]
  · intro other b2 ho hnull
    simp [cc_oci_vm_args_file_path, ho, hnull]

/-- Witness of `C13_template_path_priority`: in the example the bundle has no
template and `sysconfdir` has one, which is returned. -/
theorem C13_template_path_priority_witness :
    (cc_oci_vm_args_file_path example_builder_env (some (example_config []))).1
      = some "/etc/cc-oci-runtime/hypervisor.args" :=
  (C13_template_path_priority example_builder_env (example_config []) "/bundle"
    "/bundle/hypervisor.args" rfl rfl).2.1 (by decide) (by decide)

/-! ### Spec dispatch engine -/

/-- The handler loop calls the first handler whose name equals the label, once,
and no handler after it. -/
theorem handler_loop_first_match (node : GNode) (d : String) (child : Nat)
    (hs1 : List spec_handler) :
    ∀ (h : spec_handler) (hs2 : List spec_handler) (i : Nat) (config : cc_oci_config)
      (calls : List handler_call),
      (∀ x ∈ hs1, x.name ≠ d) → h.name = d →
      handler_loop node d child (hs1 ++ h :: hs2) i config calls =
        { ret := (h.handle_section node config).1,
          config := (h.handle_section node config).2,
          calls := calls ++ [{ handler := i + hs1.length, child := child,
                               ok := (h.handle_section node config).1 }] } := by
  induction hs1 with
  | nil => intro h hs2 i config calls _ hname; simp [handler_loop, hname]
  | cons x xs ih =>
    intro h hs2 i config calls hno hname
    have hx : x.name ≠ d := hno x (by simp)
    have hxs : ∀ y ∈ xs, y.name ≠ d := fun y hy => hno y (by simp [hy])
    simp only [List.cons_append, handler_loop, hx, if_false, List.append_eq]
    rw [ih h hs2 (i + 1) config calls hxs hname]
    simp only [List.length_cons]
    have e : i + 1 + xs.length = i + (xs.length + 1) := by omega
    rw [e]

/-- Without a handler of that name the handler loop calls nothing. -/
theorem handler_loop_no_match (node : GNode) (d : String) (child : Nat)
    (hs : List spec_handler) :
    ∀ (i : Nat) (config : cc_oci_config) (calls : List handler_call),
      (∀ x ∈ hs, x.name ≠ d) →
      handler_loop node d child hs i config calls =
        { ret := true, config := config, calls := calls } := by
  induction hs with
  | nil => intro i config calls _; simp [handler_loop]
  | cons x xs ih =>
    intro i config calls hno
    have hx : x.name ≠ d := hno x (by simp)
    have hxs : ∀ y ∈ xs, y.name ≠ d := fun y hy => hno y (by simp [hy])
    simp only [handler_loop, hx, if_false]
    exact ih (i + 1) config calls hxs

/-- The handler loop either logs nothing and succeeds, with the configuration as it
was, or logs one call, of the child at hand, whose outcome is its result. -/
theorem handler_loop_calls (node : GNode) (d : String) (child : Nat)
    (hs : List spec_handler) :
    ∀ (i : Nat) (config : cc_oci_config) (calls : List handler_call),
      ((handler_loop node d child hs i config calls).ret = true ∧
        (handler_loop node d child hs i config calls).calls = calls) ∨
      ∃ c : handler_call, c.child = child ∧
        c.ok = (handler_loop node d child hs i config calls).ret ∧
        (handler_loop node d child hs i config calls).calls = calls ++ [c] := by
  induction hs with
  | nil => intro i config calls; left; simp [handler_loop]
  | cons x xs ih =>
    intro i config calls
    by_cases hx : x.name = d
    · right
      exact ⟨{ handler := i, child := child, ok := (x.handle_section node config).1 }, rfl,
        by simp [handler_loop, hx], by simp [handler_loop, hx]⟩
    · simp only [handler_loop, hx, if_false]
      exact ih (i + 1) config calls

/-- The loop over the children, on a list split in two: the second part runs only
when the first part succeeded, from where the first part arrived. -/
theorem process_children_append (spec_handlers : List spec_handler) (xs : List GNode) :
    ∀ (ys : List GNode) (child : Nat) (config : cc_oci_config) (calls : List handler_call),
      process_children spec_handlers (xs ++ ys) child config calls =
        if (process_children spec_handlers xs child config calls).ret = true then
          process_children spec_handlers ys (child + xs.length)
            (process_children spec_handlers xs child config calls).config
            (process_children spec_handlers xs child config calls).calls
        else process_children spec_handlers xs child config calls := by
  induction xs with
  | nil => intro ys child config calls; simp [process_children]
  | cons x xs ih =>
    intro ys child config calls
    have e : child + 1 + xs.length = child + (xs.length + 1) := by omega
    cases hd : x.data with
    | none =>
      simp only [List.cons_append, process_children, hd, List.length_cons, List.append_eq]
      rw [ih ys (child + 1) config calls, e]
    | some d =>
      simp only [List.cons_append, process_children, hd, List.length_cons, List.append_eq]
      by_cases hr : (handler_loop x d child spec_handlers 0 (copy_scalars x d config)
          calls).ret = true
      · simp only [hr, if_true]
        rw [ih, e]
      · simp [hr]

/-- Dispatch succeeds exactly when every call it logged succeeded, provided the
calls logged before did. -/
theorem process_children_ret_iff (spec_handlers : List spec_handler) (xs : List GNode) :
    ∀ (child : Nat) (config : cc_oci_config) (calls : List handler_call),
      (∀ c ∈ calls, c.ok = true) →
      ((process_children spec_handlers xs child config calls).ret = true ↔
        ∀ c ∈ (process_children spec_handlers xs child config calls).calls, c.ok = true) := by
  induction xs with
  | nil => intro child config calls hok; simpa [process_children] using hok
  | cons x xs ih =>
    intro child config calls hok
    cases hd : x.data with
    | none =>
      simp only [process_children, hd]
      exact ih (child + 1) config calls hok
    | some d =>
      simp only [process_children, hd]
      rcases handler_loop_calls x d child spec_handlers 0 (copy_scalars x d config) calls with
        ⟨hret, hcalls⟩ | ⟨c, _, hcok, hcalls⟩
      · rw [if_pos hret]
        exact ih (child + 1) _ _ (by rw [hcalls]; exact hok)
      · by_cases hr : (handler_loop x d child spec_handlers 0 (copy_scalars x d config)
            calls).ret = true
        · rw [if_pos hr]
          apply ih (child + 1) _ _
          rw [hcalls]
          intro c2 hc2
          rcases List.mem_append.mp hc2 with h | h
          · exact hok c2 h
          · simp only [List.mem_singleton] at h
            rw [h, hcok, hr]
        · rw [if_neg hr]
          constructor
          · intro h; exact absurd h hr
          · intro h
            have := h c (by rw [hcalls]; simp)
            rw [hcok] at this
            exact absurd this hr

/-- The calls are logged in document order: behind calls of children before
`child`, in increasing order, the loop from `child` on logs calls of later
children, in increasing order. -/
theorem process_children_order (spec_handlers : List spec_handler) (xs : List GNode) :
    ∀ (child : Nat) (config : cc_oci_config) (calls : List handler_call),
      (calls.map fun c => c.child).Pairwise (· < ·) →
      (∀ c ∈ calls, c.child < child) →
      ((process_children spec_handlers xs child config calls).calls.map
        fun c => c.child).Pairwise (· < ·) := by
  induction xs with
  | nil => intro child config calls hp _; simpa [process_children] using hp
  | cons x xs ih =>
    intro child config calls hp hlt
    cases hd : x.data with
    | none =>
      simp only [process_children, hd]
      exact ih (child + 1) config calls hp (fun c hc => Nat.lt_succ_of_lt (hlt c hc))
    | some d =>
      simp only [process_children, hd]
      rcases handler_loop_calls x d child spec_handlers 0 (copy_scalars x d config) calls with
        ⟨hret, hcalls⟩ | ⟨c, hcc, _, hcalls⟩
      · rw [if_pos hret]
        apply ih (child + 1) _ _
        · rw [hcalls]; exact hp
        · rw [hcalls]; exact fun c hc => Nat.lt_succ_of_lt (hlt c hc)
      · have hp2 : ((calls ++ [c]).map fun c => c.child).Pairwise (· < ·) := by
          rw [List.map_append, List.pairwise_append]
          refine ⟨hp, by simp, ?_⟩
          intro a ha b hb
          simp only [List.map_cons, List.map_nil, List.mem_singleton] at hb
          obtain ⟨a2, ha2, rfl⟩ := List.mem_map.mp ha
          rw [hb, hcc]
          exact hlt a2 ha2
        have hlt2 : ∀ c2 ∈ calls ++ [c], c2.child < child + 1 := by
          intro c2 hc2
          rcases List.mem_append.mp hc2 with h | h
          · exact Nat.lt_succ_of_lt (hlt c2 h)
          · simp only [List.mem_singleton] at h
            rw [h, hcc]; exact Nat.lt_succ_self _
        by_cases hr : (handler_loop x d child spec_handlers 0 (copy_scalars x d config)
            calls).ret = true
        · rw [if_pos hr]
          apply ih (child + 1) _ _
          · rw [hcalls]; exact hp2
          · rw [hcalls]; exact hlt2
        · rw [if_neg hr]
          rw [hcalls]; exact hp2

/-- Children whose label matches no handler and is neither `ociVersion` nor
`hostname` change nothing. -/
theorem process_children_unmatched (spec_handlers : List spec_handler) (xs : List GNode) :
    ∀ (child : Nat) (config : cc_oci_config) (calls : List handler_call),
      (∀ node ∈ xs, ∀ d, node.data = some d →
        (∀ x ∈ spec_handlers, x.name ≠ d) ∧ d ≠ "ociVersion" ∧ d ≠ "hostname") →
      process_children spec_handlers xs child config calls =
        { ret := true, config := config, calls := calls } := by
  induction xs with
  | nil => intro child config calls _; simp [process_children]
  | cons x xs ih =>
    intro child config calls h
    have hxs : ∀ node ∈ xs, ∀ d, node.data = some d →
        (∀ x ∈ spec_handlers, x.name ≠ d) ∧ d ≠ "ociVersion" ∧ d ≠ "hostname" :=
      fun node hn => h node (by simp [hn])
    cases hd : x.data with
    | none =>
      simp only [process_children, hd]
      exact ih (child + 1) config calls hxs
    | some d =>
      obtain ⟨hno, hv, hh⟩ := h x (by simp) d hd
      have hcopy : copy_scalars x d config = config := by
        unfold copy_scalars
        cases x.children <;> simp [hv, hh]
      simp only [process_children, hd, hcopy,
        handler_loop_no_match x d child spec_handlers 0 config calls hno, if_true]
      exact ih (child + 1) config calls hxs

/-- C14: when the children before the `k`-th one were dispatched with success and
the handler called for the `k`-th child (the first one named like its label)
reports failure, `cc_oci_process_config` returns `false` with the configuration as
that handler left it and that call as the last one: the later children `post` have
no effect.  And for every document, dispatch succeeds exactly when every handler
call made succeeded. -/
theorem C14_handler_failure_stops_dispatch (data : Option String) (pre post : List GNode)
    (node : GNode) (config : cc_oci_config) (d : String)
    (hs1 hs2 : List spec_handler) (h : spec_handler)
    (hpre : (cc_oci_process_config (some (GNode.node data pre)) config
      (hs1 ++ h :: hs2)).ret = true)
    (hd : node.data = some d)
    (hno : ∀ x ∈ hs1, x.name ≠ d) (hname : h.name = d)
    (hfail : (h.handle_section node (copy_scalars node d
      (cc_oci_process_config (some (GNode.node data pre)) config
        (hs1 ++ h :: hs2)).config)).1 = false) :
    cc_oci_process_config (some (GNode.node data (pre ++ node :: post))) config
        (hs1 ++ h :: hs2) =
      { ret := false,
        config := (h.handle_section node (copy_scalars node d
          (cc_oci_process_config (some (GNode.node data pre)) config
            (hs1 ++ h :: hs2)).config)).2,
        calls := (cc_oci_process_config (some (GNode.node data pre)) config
            (hs1 ++ h :: hs2)).calls
          ++ [{ handler := hs1.length, child := pre.length, ok := false }] } ∧
    ∀ (root : Option GNode) (config : cc_oci_config) (spec_handlers : List spec_handler),
      (cc_oci_process_config root config spec_handlers).ret = true ↔
        ∀ c ∈ (cc_oci_process_config root config spec_handlers).calls, c.ok = true := by
  refine ⟨?_, ?_⟩
  · simp only [cc_oci_process_config, GNode.children] at hpre hfail ⊢
    rw [process_children_append, if_pos hpre]
    simp only [process_children, hd, Nat.zero_add]
    rw [handler_loop_first_match node d pre.length hs1 h hs2 0 _ _ hno hname]
    simp [hfail]
  · intro root config spec_handlers
    cases root with
    | none => simp [cc_oci_process_config]
    | some root =>
      simp only [cc_oci_process_config]
      exact process_children_ret_iff spec_handlers root.children 0 config [] (by simp)

/-- Witness of `C14_handler_failure_stops_dispatch`: `process` succeeds, `mounts`
fails, and the later section `hostname` leaves no trace. -/
theorem C14_handler_failure_stops_dispatch_witness :
    (cc_oci_process_config
        (some (GNode.node none
          ([section_node "process" "p"] ++ section_node "mounts" "m"
            :: [section_node "hostname" "late"])))
        (example_config []) example_handlers).ret = false ∧
    (cc_oci_process_config
        (some (GNode.node none
          ([section_node "process" "p"] ++ section_node "mounts" "m"
            :: [section_node "hostname" "late"])))
        (example_config []) example_handlers).config.oci.hostname = some "broken" ∧
    (cc_oci_process_config
        (some (GNode.node none
          ([section_node "process" "p"] ++ section_node "mounts" "m"
            :: [section_node "hostname" "late"])))
        (example_config []) example_handlers).calls
      = [{ handler := 0, child := 0, ok := true }, { handler := 1, child := 1, ok := false }] := by
  have h := (C14_handler_failure_stops_dispatch none [section_node "process" "p"]
    [section_node "hostname" "late"] (section_node "mounts" "m") (example_config [])
    "mounts" [example_handlers.get ⟨0, by decide⟩]
    [example_handlers.get ⟨2, by decide⟩, example_handlers.get ⟨3, by decide⟩]
    (example_handlers.get ⟨1, by decide⟩) (by decide) rfl
    (by intro x hx; simp only [List.mem_singleton] at hx; subst hx; decide)
    rfl (by decide)).1
  have e : example_handlers = [example_handlers.get ⟨0, by decide⟩]
      ++ example_handlers.get ⟨1, by decide⟩
        :: [example_handlers.get ⟨2, by decide⟩, example_handlers.get ⟨3, by decide⟩] := rfl
  rw [e, h]
  decide

/-- C15: a top-level child whose label equals no handler name has no handler called
and dispatch goes on with the next child; and when no label of the document equals
a handler name, `ociVersion` or `hostname`, dispatch returns `true`, calls no
handler and leaves the configuration as it was. -/
theorem C15_unknown_sections_ignored (root : GNode) (config : cc_oci_config)
    (spec_handlers : List spec_handler)
    (h : ∀ node ∈ root.children, ∀ d, node.data = some d →
      (∀ x ∈ spec_handlers, x.name ≠ d) ∧ d ≠ "ociVersion" ∧ d ≠ "hostname") :
    cc_oci_process_config (some root) config spec_handlers =
      { ret := true, config := config, calls := [] } ∧
    ∀ (node : GNode) (rest : List GNode) (child : Nat) (cfg : cc_oci_config)
      (calls : List handler_call) (d : String),
      node.data = some d → (∀ x ∈ spec_handlers, x.name ≠ d) →
      process_children spec_handlers (node :: rest) child cfg calls =
        process_children spec_handlers rest (child + 1) (copy_scalars node d cfg) calls := by
  refine ⟨?_, ?_⟩
  · simp only [cc_oci_process_config]
    exact process_children_unmatched spec_handlers root.children 0 config [] h
  · intro node rest child cfg calls d hd hno
    simp only [process_children, hd,
      handler_loop_no_match node d child spec_handlers 0 _ calls hno, if_true]

/-- Witness of `C15_unknown_sections_ignored`: two sections unknown to the example handlers. -/
theorem C15_unknown_sections_ignored_witness :
    cc_oci_process_config
        (some (GNode.node none [section_node "future" "x", section_node "Process" "y"]))
        (example_config []) example_handlers =
      { ret := true, config := example_config [], calls := [] } :=
  (C15_unknown_sections_ignored
    (GNode.node none [section_node "future" "x", section_node "Process" "y"])
    (example_config []) example_handlers
    (by
      intro node hn d hd
      simp only [GNode.children, List.mem_cons, List.mem_singleton, List.not_mem_nil,
        or_false] at hn
      rcases hn with rfl | rfl
      · obtain rfl : "future" = d := Option.some.inj hd
        refine ⟨?_, by decide, by decide⟩
        intro x hx
        simp only [example_handlers, List.mem_cons, List.mem_singleton, List.not_mem_nil,
          or_false] at hx
        rcases hx with rfl | rfl | rfl | rfl <;> decide
      · obtain rfl : "Process" = d := Option.some.inj hd
        refine ⟨?_, by decide, by decide⟩
        intro x hx
        simp only [example_handlers, List.mem_cons, List.mem_singleton, List.not_mem_nil,
          or_false] at hx
        rcases hx with rfl | rfl | rfl | rfl <;> decide)).1

/-- C16: for a top-level child with label `d`, when `h` is the first handler of the
array whose name equals `d` (string equality, so a name in another letter case does
not count), `h` is called once for that child, on the node, and no handler after
it: on success dispatch goes on with the next child, on failure it returns.  And
the calls are made in document order: the children they are made for increase
strictly along the log. -/
theorem C16_first_match_wins (node : GNode) (rest : List GNode) (d : String) (child : Nat)
    (hs1 hs2 : List spec_handler) (h : spec_handler) (config : cc_oci_config)
    (calls : List handler_call)
    (hd : node.data = some d) (hno : ∀ x ∈ hs1, x.name ≠ d) (hname : h.name = d) :
    process_children (hs1 ++ h :: hs2) (node :: rest) child config calls =
      (if (h.handle_section node (copy_scalars node d config)).1 = true then
        process_children (hs1 ++ h :: hs2) rest (child + 1)
          (h.handle_section node (copy_scalars node d config)).2
          (calls ++ [{ handler := hs1.length, child := child, ok := true }])
      else
        { ret := false,
          config := (h.handle_section node (copy_scalars node d config)).2,
          calls := calls ++ [{ handler := hs1.length, child := child, ok := false }] }) ∧
    ∀ (root : Option GNode) (config : cc_oci_config) (spec_handlers : List spec_handler),
      ((cc_oci_process_config root config spec_handlers).calls.map
        fun c => c.child).Pairwise (· < ·) := by
  refine ⟨?_, ?_⟩
  · simp only [process_children, hd]
    rw [handler_loop_first_match node d child hs1 h hs2 0 _ _ hno hname]
    by_cases hok : (h.handle_section node (copy_scalars node d config)).1 = true
    · simp [hok]
    · have hf : (h.handle_section node (copy_scalars node d config)).1 = false := by
        simpa using hok
      simp [hf]
  · intro root config spec_handlers
    cases root with
    | none => simp [cc_oci_process_config]
    | some root =>
      simp only [cc_oci_process_config]
      exact process_children_order spec_handlers root.children 0 config [] (by simp)
        (by simp)

/-- Witness of `C16_first_match_wins`: behind a handler named `Process`, the label
`process` selects the first `process` handler of the example set, not the `Process`
one and not the second `process` one. -/
theorem C16_first_match_wins_witness :
    (process_children
        ([{ name := "Process", handle_section := fun _ config => (false, config) }]
          ++ example_handlers.get ⟨0, by decide⟩ :: example_handlers.tail)
        [section_node "process" "p"] 0 (example_config []) []).calls
      = [{ handler := 1, child := 0, ok := true }] := by
  rw [(C16_first_match_wins (section_node "process" "p") [] "process" 0
    [{ name := "Process", handle_section := fun _ config => (false, config) }]
    example_handlers.tail (example_handlers.get ⟨0, by decide⟩) (example_config []) [] rfl
    (by intro x hx; simp only [List.mem_singleton] at hx; subst hx; decide) rfl).1]
  decide

/-! ### UUID and short name -/

/-- A hexadecimal digit is no hyphen. -/
theorem hex_digit_ne_hyphen (n : Nat) : hex_digit n ≠ '-' := by
  unfold hex_digit
  have h : n % 16 < 16 := Nat.mod_lt _ (by decide)
  interval_cases (n % 16) <;> decide

/-- The search of `g_strstr_len` for a one-character needle, with a window that
covers the string, finds the first occurrence. -/
theorem g_strstr_len_scan_char (x : Char) (p : List Char) :
    ∀ (q : List Char) (positions : Nat), x ∉ p → p.length < positions →
      g_strstr_len_scan [x] (p ++ x :: q) positions = some p.length := by
  induction p with
  | nil =>
    intro q positions _ hpos
    obtain ⟨k, rfl⟩ : ∃ k, positions = k + 1 := ⟨positions - 1, by simp at hpos; omega⟩
    simp [g_strstr_len_scan]
  | cons c p ih =>
    intro q positions hx hpos
    obtain ⟨k, rfl⟩ : ∃ k, positions = k + 1 := ⟨positions - 1, by simp at hpos; omega⟩
    have hc : c ≠ x := fun h => hx (by simp [h])
    have hp : x ∉ p := fun h => hx (by simp [h])
    have hk : p.length < k := by simp at hpos; omega
    simp [g_strstr_len_scan, hc, ih q k hp hk]

/-- The function `g_strrstr` finds the last occurrence: the one with no further
occurrence behind it. -/
theorem g_strrstr_last (x : Char) (p e : List Char) (he : x ∉ e) :
    g_strrstr (p ++ x :: e) x = some p.length := by
  have hrev : (p ++ x :: e).reverse = e.reverse ++ x :: p.reverse := by simp
  have hscan := g_strstr_len_scan_char x e.reverse p.reverse
    (p ++ x :: e).length (by simpa using he) (by simp; omega)
  have hlen : ¬ (p ++ x :: e).length < 1 := by simp
  simp only [g_strrstr, g_strstr_len, hrev, List.length_singleton, Nat.one_ne_zero, if_false,
    hlen]
  have e1 : (p ++ x :: e).length - 1 + 1 = (p ++ x :: e).length := by
    simp only [List.length_append, List.length_cons]
    omega
  rw [e1, hscan]
  simp only [List.length_reverse, List.length_append, List.length_cons]
  congr 1
  omega

/-- The indices of the sixteen bytes. -/
theorem range_sixteen :
    List.range 16 = [0, 1, 2, 3, 4, 5, 6, 7, 8, 9, 10, 11, 12, 13, 14, 15] := by
  decide

/-- The characters of `uuid_pattern`. -/
theorem uuid_pattern_chars :
    uuid_pattern =
      ['0', '0', '0', '0', '0', '0', '0', '0', '-', '0', '0', '0', '0', '-',
       '0', '0', '0', '0', '-', '0', '0', '0', '0', '-',
       '0', '0', '0', '0', '0', '0', '0', '0', '0', '0', '0', '0'] := by
  decide

/-- The string built by the loop of lines 326-337: the sixteen bytes in
hexadecimal, in groups of 4, 2, 2, 2 and 6 bytes separated by hyphens. -/
theorem uuid_str_data (uuid : Nat → Nat) :
    (uuid_str uuid).data =
      (fmt_02x (uuid 0) ++ fmt_02x (uuid 1) ++ fmt_02x (uuid 2) ++ fmt_02x (uuid 3)
        ++ '-' :: (fmt_02x (uuid 4) ++ fmt_02x (uuid 5))
        ++ '-' :: (fmt_02x (uuid 6) ++ fmt_02x (uuid 7))
        ++ '-' :: (fmt_02x (uuid 8) ++ fmt_02x (uuid 9)))
      ++ '-' :: (fmt_02x (uuid 10) ++ fmt_02x (uuid 11) ++ fmt_02x (uuid 12)
        ++ fmt_02x (uuid 13) ++ fmt_02x (uuid 14) ++ fmt_02x (uuid 15)) := by
  simp [uuid_str, range_sixteen, uuid_loop, g_snprintf, fmt_02x, UUID_MAX, uuid_pattern_chars]

/-! ### One interface for the kernel parameter, and the duplicate check -/

/-- C19: two configurations with the same hostname, the same gateway and the same
first interface (or both without interface) give the same kernel IP parameter,
whatever their other interfaces.  When the first interface has no IPv4 address but
the IPv6 address `v`, with hostname `h` and interface name `n`, the parameter is
`ip=[v]::::h:n:off::`; when it has neither address the parameter is empty, whatever
the later interfaces hold. -/
theorem C19_kernel_cmdline_first_interface_only (c1 c2 : cc_oci_config)
    (hh : c1.net.hostname = c2.net.hostname) (hg : c1.net.gateway = c2.net.gateway)
    (hi : c1.net.interfaces.head? = c2.net.interfaces.head?) :
    cc_oci_expand_net_kernel_cmdline c1 = cc_oci_expand_net_kernel_cmdline c2 ∧
    (∀ (config : cc_oci_config) (if_cfg : cc_oci_net_if_cfg)
      (rest : List cc_oci_net_if_cfg) (v h n : String),
      config.net.interfaces = if_cfg :: rest → if_cfg.ip_address = none →
      if_cfg.ipv6_address = some v → config.net.hostname = some h →
      if_cfg.ifname = some n →
      cc_oci_expand_net_kernel_cmdline config
        = "ip=[" ++ v ++ "]::::" ++ h ++ ":" ++ n ++ ":off::") ∧
    (∀ (config : cc_oci_config) (if_cfg : cc_oci_net_if_cfg)
      (rest : List cc_oci_net_if_cfg),
      config.net.interfaces = if_cfg :: rest → if_cfg.ip_address = none →
      if_cfg.ipv6_address = none →
      cc_oci_expand_net_kernel_cmdline config = "") := by
  refine ⟨?_, ?_, ?_⟩
  · cases h1 : c1.net.interfaces with
    | nil =>
      cases h2 : c2.net.interfaces with
      | nil => simp [cc_oci_expand_net_kernel_cmdline, h1, h2, hh]
      | cons b bs => rw [h1, h2] at hi; simp at hi
    | cons a as =>
      cases h2 : c2.net.interfaces with
      | nil => rw [h1, h2] at hi; simp at hi
      | cons b bs =>
        rw [h1, h2] at hi
        simp only [List.head?_cons, Option.some.injEq] at hi
        subst hi
        simp [cc_oci_expand_net_kernel_cmdline, h1, h2, hh, hg]
  · intro config if_cfg rest v h n hif h4 h6 hh hn
    simp [cc_oci_expand_net_kernel_cmdline, hif, h4, h6, hh, hn, fmt_s]
  · intro config if_cfg rest hif h4 h6
    simp [cc_oci_expand_net_kernel_cmdline, hif, h4, h6]

/-- Witness of `C19_kernel_cmdline_first_interface_only`: behind the same first
interface (IPv6 only), a second interface with an IPv4 address changes nothing. -/
theorem C19_kernel_cmdline_first_interface_only_witness :
    cc_oci_expand_net_kernel_cmdline (example_config [example_if2, example_if])
      = cc_oci_expand_net_kernel_cmdline (example_config [example_if2]) ∧
    cc_oci_expand_net_kernel_cmdline (example_config [example_if2, example_if])
      = "ip=[fe80::1]::::vm1:eth1:off::" :=
  ⟨(C19_kernel_cmdline_first_interface_only (example_config [example_if2, example_if])
      (example_config [example_if2]) rfl rfl rfl).1,
   (C19_kernel_cmdline_first_interface_only (example_config [example_if2, example_if])
      (example_config [example_if2]) rfl rfl rfl).2.1
      (example_config [example_if2, example_if]) example_if2 [example_if]
      "fe80::1" "vm1" "eth1" rfl rfl rfl rfl rfl⟩

/-- The loop of the source and the loop without the duplicate check give the same
outputs. -/
theorem network_loop_eq_without_skip (interfaces : List cc_oci_net_if_cfg)
    (rest : List cc_oci_net_if_cfg) :
    ∀ (index : Nat) (out : net_cmdline),
      network_loop interfaces rest index out = network_loop_without_skip rest index out := by
  induction rest with
  | nil => intro index out; simp [network_loop, network_loop_without_skip]
  | cons if_cfg rest ih =>
    intro index out
    simp only [network_loop, network_loop_without_skip, ih]

/-- C20: `cc_oci_expand_network_cmdline` gives the same eight outputs as the
procedure without the inner loop "skip duplicates".  In particular, when the second
interface has the name of the first one, it is not skipped: it gets the secondary
pair (as for the two example interfaces named `eth0`). -/
theorem C20_duplicate_skip_has_no_effect :
    (∀ (config : cc_oci_config) (out : net_cmdline),
      cc_oci_expand_network_cmdline config out
        = cc_oci_expand_network_cmdline_without_skip config out) ∧
    (∀ (config : cc_oci_config) (out : net_cmdline) (if0 if1 : cc_oci_net_if_cfg)
      (rest : List cc_oci_net_if_cfg),
      config.net.interfaces = if0 :: if1 :: rest → if1.ifname = if0.ifname →
      out.netdev2_option = none →
      (cc_oci_expand_network_cmdline config out).netdev2_option = some "-netdev" ∧
      (cc_oci_expand_network_cmdline config out).netdev2_params
        = some (cc_oci_expand_netdev_cmdline if1) ∧
      (cc_oci_expand_network_cmdline config out).net_device2_option = some "-device" ∧
      (cc_oci_expand_network_cmdline config out).net_device2_params
        = some (cc_oci_expand_net_device_cmdline if1)) ∧
    example_if_duplicate.ifname = example_if.ifname ∧
    skip_duplicates [example_if, example_if_duplicate] 1 example_if_duplicate = [0] ∧
    (cc_oci_expand_network_cmdline (example_config [example_if, example_if_duplicate])
        net_cmdline.absent).netdev2_params
      = some "tap,ifname=tap1,script=no,downscript=no,id=tap1" := by
  refine ⟨?_, ?_, by decide, by decide, by decide⟩
  · intro config out
    cases h : config.net.interfaces with
    | nil => simp [cc_oci_expand_network_cmdline, cc_oci_expand_network_cmdline_without_skip, h]
    | cons a as =>
      simp only [cc_oci_expand_network_cmdline, cc_oci_expand_network_cmdline_without_skip, h,
        network_loop_eq_without_skip]
  · intro config out if0 if1 rest hif _ hout
    simp [cc_oci_expand_network_cmdline, hif, network_loop, hout]

/-! ### The comment scan stays inside the line -/

/-- What the scan of `g_strstr_len` finds for a one-character needle is an
occurrence of that character. -/
theorem g_strstr_len_scan_found (x : Char) (s : List Char) :
    ∀ (positions k : Nat), g_strstr_len_scan [x] s positions = some k → s.get? k = some x := by
  induction s with
  | nil => intro positions k h; simp [g_strstr_len_scan] at h
  | cons c cs ih =>
    intro positions k h
    cases positions with
    | zero => simp [g_strstr_len_scan] at h
    | succ n =>
      by_cases hc : c = x
      · simp [g_strstr_len_scan, hc] at h
        subst h
        simp [hc]
      · simp only [g_strstr_len_scan, List.length_singleton, List.take_succ_cons, List.take_zero,
          List.cons.injEq, hc, and_true, if_false] at h
        cases hk : g_strstr_len_scan [x] cs n with
        | none => rw [hk] at h; simp at h
        | some k2 =>
          rw [hk] at h
          simp only [Option.map_some', Option.some.injEq] at h
          subst h
          simpa using ih n k2 hk

/-- What `g_strstr_len` finds for a one-character needle is an occurrence of that
character. -/
theorem g_strstr_len_found (x : Char) (s : List Char) (n k : Nat)
    (h : g_strstr_len s n [x] = some k) : s.get? k = some x := by
  unfold g_strstr_len at h
  simp only [List.length_singleton, Nat.one_ne_zero, if_false] at h
  by_cases hn : n < 1
  · simp [hn] at h
  · simp only [hn, if_false] at h
    exact g_strstr_len_scan_found x s _ k h

/-- The loop started at a `#` that is not the first character, with fuel for the
rest of the line: it has a result, and every pointer whose preceding character it
reads points at a `#` at offset 1 or more. -/
theorem comment_loop_in_bounds (arg : List Char) (fuel : Nat) :
    ∀ ptr : Nat, 1 ≤ ptr → arg.get? ptr = some '#' → arg.length - ptr ≤ fuel →
      (comment_loop arg fuel (some ptr)).isSome = true ∧
      ∀ p ∈ comment_loop_reads arg fuel (some ptr),
        1 ≤ p ∧ arg.get? p = some '#' ∧ (arg.get? (p - 1)).isSome = true := by
  induction fuel with
  | zero =>
    intro ptr _ hget hfuel
    have hlt : ptr < arg.length := by
      by_contra hcon
      rw [List.get?_eq_none.mpr (by omega)] at hget
      simp at hget
    omega
  | succ fuel ih =>
    intro ptr hptr hget hfuel
    have hlt : ptr < arg.length := by
      by_contra hcon
      rw [List.get?_eq_none.mpr (by omega)] at hget
      simp at hget
    have hne : ptr ≠ 0 := by omega
    cases hprev : arg.get? (ptr - 1) with
    | none =>
      have := List.get?_eq_none.mp hprev
      omega
    | some prev =>
      have hprev2 : arg[ptr - 1]? = some prev := by simpa using hprev
      have hthis : 1 ≤ ptr ∧ arg.get? ptr = some '#' ∧ (arg.get? (ptr - 1)).isSome = true :=
        ⟨hptr, hget, by rw [hprev]; rfl⟩
      by_cases hsp : g_ascii_isspace prev = true
      · refine ⟨by simp [comment_loop, hne, hprev2, hsp], ?_⟩
        intro p hp
        simp [comment_loop_reads, hprev2, hsp] at hp
        rw [hp]; exact hthis
      · have hsp2 : g_ascii_isspace prev = false := by simpa using hsp
        cases hnext : g_strstr_len (arg.drop (ptr + 1)) LINE_MAX ['#'] with
        | none =>
          refine ⟨by simp [comment_loop, hne, hprev2, hsp, hnext], ?_⟩
          intro p hp
          simp [comment_loop_reads, hprev2, hsp2, hnext] at hp
          rw [hp]; exact hthis
        | some k =>
          have hfound := g_strstr_len_found '#' _ _ k hnext
          have hget2 : arg.get? (k + (ptr + 1)) = some '#' := by
            have e : k + (ptr + 1) = ptr + 1 + k := by omega
            rw [e]
            simpa [List.getElem?_drop] using hfound
          have hlt2 : k + (ptr + 1) < arg.length := by
            by_contra hcon
            rw [List.get?_eq_none.mpr (by omega)] at hget2
            simp at hget2
          have h := ih (k + (ptr + 1)) (by omega) hget2 (by omega)
          refine ⟨by simpa [comment_loop, hne, hprev2, hsp, hnext] using h.1, ?_⟩
          intro p hp
          simp [comment_loop_reads, hprev2, hsp2, hnext] at hp
          rcases hp with hp | hp
          · rw [hp]; exact hthis
          · exact h.2 p hp

/-- On a line that does not start with `#` the scan has a result, and every pointer
whose preceding character it reads points at a `#` at offset 1 or more. -/
theorem strip_trailing_comment_in_bounds (arg : List Char) (hhead : arg.head? ≠ some '#') :
    (strip_trailing_comment arg).isSome = true ∧
    ∀ p ∈ comment_loop_reads arg arg.length (g_strstr_len arg LINE_MAX ['#']),
      1 ≤ p ∧ arg.get? p = some '#' ∧ (arg.get? (p - 1)).isSome = true := by
  unfold strip_trailing_comment
  cases hfirst : g_strstr_len arg LINE_MAX ['#'] with
  | none =>
    refine ⟨?_, ?_⟩
    · cases arg.length <;> simp [comment_loop]
    · intro p hp
      cases hl : arg.length <;> simp [hl, comment_loop_reads] at hp
  | some k =>
    have hfound := g_strstr_len_found '#' arg LINE_MAX k hfirst
    have hk : 1 ≤ k := by
      cases k with
      | zero =>
        cases arg with
        | nil => simp at hfound
        | cons c cs =>
          simp only [List.get?_cons_zero, Option.some.injEq] at hfound
          simp [hfound] at hhead
      | succ k => omega
    exact comment_loop_in_bounds arg arg.length k hk hfound (by omega)

/-- The loop over the lines always has a result. -/
theorem expand_args_isSome (env : Env) (tags : List special_tag) (lines : List String) :
    ∀ count : Nat, (expand_args env tags lines count).isSome = true := by
  induction lines with
  | nil => intro count; simp [expand_args]
  | cons arg rest ih =>
    intro count
    by_cases hhead : (resolve_command env count arg).data.head? = some '#'
    · have h := ih (count + 1)
      simp only [expand_args, hhead, if_true, Option.isSome_map']
      exact h
    · have hs := (strip_trailing_comment_in_bounds _ hhead).1
      cases hstrip : strip_trailing_comment (resolve_command env count arg).data with
      | none => rw [hstrip] at hs; simp at hs
      | some chars =>
        simp only [expand_args, hhead, if_false, hstrip]
        cases hr : replace_tags env tags ⟨chars⟩ with
        | mk ok line =>
          cases ok with
          | false => simp
          | true =>
            have h := ih (count + 1)
            simpa using h

/-- The search of line 450 always finds a hyphen in the formatted UUID. -/
theorem g_strrstr_uuid_str (uuid : Nat → Nat) :
    g_strrstr (uuid_str uuid).data '-' = some 23 := by
  have hn : '-' ∉ fmt_02x (uuid 10) ++ fmt_02x (uuid 11) ++ fmt_02x (uuid 12)
      ++ fmt_02x (uuid 13) ++ fmt_02x (uuid 14) ++ fmt_02x (uuid 15) := by
    simp [fmt_02x, fun n => (hex_digit_ne_hyphen n).symm]
  rw [uuid_str_data uuid, g_strrstr_last '-' _ _ hn]
  simp [fmt_02x]

/-- The embedding of `cc_oci_expand_cmdline` always has a result. -/
theorem expand_cmdline_isSome (env : Env) (config : Option cc_oci_config)
    (args : Option (List String)) :
    (cc_oci_expand_cmdline env config args).isSome = true := by
  unfold cc_oci_expand_cmdline
  simp only [g_strrstr_uuid_str]
  repeat' split
  all_goals first
    | rfl
    | (rename_i h; have h2 := congrArg Option.isSome h; rw [expand_args_isSome] at h2;
       simp at h2)

/-- C21: on every line that does not start with `#` when the comment test is reached
(a line that does is cleared before the scan), every pointer `ptr` whose preceding
character the scan reads points at a `#` at offset 1 or more, so `*(ptr-1)` lies
inside the line.  Hence comment handling has a result for every line, the loop over
the lines has a result for every list of lines, and so has
`cc_oci_expand_cmdline`.  On `a#b #c` the scan reads before the offsets 1 and 4. -/
theorem C21_comment_scan_reads_in_bounds :
    (∀ L : String, L.data.head? ≠ some '#' →
      ∀ p ∈ comment_loop_reads L.data L.data.length (g_strstr_len L.data LINE_MAX ['#']),
        1 ≤ p ∧ L.data.get? p = some '#' ∧ (L.data.get? (p - 1)).isSome = true) ∧
    (∀ L : String, (strip_comment L).isSome = true) ∧
    (∀ (env : Env) (tags : List special_tag) (lines : List String) (count : Nat),
      (expand_args env tags lines count).isSome = true) ∧
    (∀ (env : Env) (config : Option cc_oci_config) (args : Option (List String)),
      (cc_oci_expand_cmdline env config args).isSome = true) ∧
    comment_loop_reads "a#b #c".data "a#b #c".data.length
      (g_strstr_len "a#b #c".data LINE_MAX ['#']) = [1, 4] := by
  refine ⟨?_, ?_, ?_, ?_, by decide⟩
  · intro L hhead
    exact (strip_trailing_comment_in_bounds L.data hhead).2
  · intro L
    by_cases hhead : L.data.head? = some '#'
    · simp [strip_comment, hhead]
    · have h := (strip_trailing_comment_in_bounds L.data hhead).1
      simpa [strip_comment, hhead] using h
  · intro env tags lines count
    exact expand_args_isSome env tags lines count
  · intro env config args
    exact expand_cmdline_isSome env config args

/-! ### Whitespace-only lines -/

/-- What `g_strstrip` makes of a line is empty exactly when the line holds nothing
but whitespace. -/
theorem g_strstrip_eq_empty_iff (s : String) :
    g_strstrip s = "" ↔ ∀ c ∈ s.data, g_ascii_isspace c = true := by
  have hiff : g_strstrip s = "" ↔ g_strchomp (g_strchug s.data) = [] := by
    constructor
    · intro h
      exact congrArg String.data h
    · intro h
      show (⟨g_strchomp (g_strchug s.data)⟩ : String) = ""
      rw [h]
  rw [hiff]
  constructor
  · intro h
    have hrev : (g_strchug s.data).reverse.dropWhile g_ascii_isspace = [] := by
      have := congrArg List.reverse h
      simpa [g_strchomp] using this
    have hall : ∀ c ∈ g_strchug s.data, g_ascii_isspace c = true := by
      intro c hc
      exact (List.dropWhile_eq_nil_iff.mp hrev) c (List.mem_reverse.mpr hc)
    have hnil : g_strchug s.data = [] := by
      cases hch : g_strchug s.data with
      | nil => rfl
      | cons a l =>
        have h1 := head_dropWhile_false g_ascii_isspace s.data a
          (by show (g_strchug s.data).head? = some a; rw [hch]; rfl)
        have h2 := hall a (by rw [hch]; simp)
        rw [h1] at h2
        exact absurd h2 (by simp)
    exact List.dropWhile_eq_nil_iff.mp hnil
  · intro h
    have hnil : g_strchug s.data = [] := List.dropWhile_eq_nil_iff.mpr h
    rw [hnil]
    rfl

/-- The compaction pass works part by part. -/
theorem compact_args_append (xs ys : List String) :
    compact_args (xs ++ ys) = compact_args xs ++ compact_args ys := by
  simp only [compact_args_eq, List.filter_append, List.map_append]

/-! ### The kernel IP parameter and the substitution table -/

/-- The eight network outputs read the MAC address and the tap device of the first
two interfaces only. -/
theorem expand_network_cmdline_congr (c1 c2 : cc_oci_config) (out : net_cmdline)
    (ht : c1.net.interfaces.tail = c2.net.interfaces.tail)
    (hh : c1.net.interfaces.head?.map (fun i => (i.mac_address, i.tap_device))
      = c2.net.interfaces.head?.map (fun i => (i.mac_address, i.tap_device))) :
    cc_oci_expand_network_cmdline c1 out = cc_oci_expand_network_cmdline c2 out := by
  cases h1 : c1.net.interfaces with
  | nil =>
    cases h2 : c2.net.interfaces with
    | nil => simp [cc_oci_expand_network_cmdline, h1, h2]
    | cons b bs => rw [h1, h2] at hh; simp at hh
  | cons a as =>
    cases h2 : c2.net.interfaces with
    | nil => rw [h1, h2] at hh; simp at hh
    | cons b bs =>
      rw [h1, h2] at hh ht
      simp only [List.head?_cons, Option.map_some', Option.some.injEq, Prod.mk.injEq] at hh
      simp only [List.tail_cons] at ht
      subst ht
      have e1 : cc_oci_expand_netdev_cmdline a = cc_oci_expand_netdev_cmdline b := by
        simp [cc_oci_expand_netdev_cmdline, hh.2]
      have e2 : cc_oci_expand_net_device_cmdline a = cc_oci_expand_net_device_cmdline b := by
        simp [cc_oci_expand_net_device_cmdline, hh.1, hh.2]
      simp only [cc_oci_expand_network_cmdline, h1, h2, network_loop_eq_without_skip,
        network_loop_without_skip, if_true, e1, e2]

/-- The return value, the lines and the links that the last step of
`cc_oci_expand_cmdline` hands back do not depend on the configuration it stores. -/
theorem expand_result_view (o : Option (Bool × List String)) (cA cB : cc_oci_config)
    (symlinks : List (String × String)) :
    Option.map (fun r : expand_result => (r.ret, r.args, r.symlinks))
        (match o with
          | none => none
          | some (ret, args) =>
            some { ret := ret, config := some cA, args := some args, symlinks := symlinks })
      = Option.map (fun r : expand_result => (r.ret, r.args, r.symlinks))
        (match o with
          | none => none
          | some (ret, args) =>
            some { ret := ret, config := some cB, args := some args,
                   symlinks := symlinks }) := by
  cases o with
  | none => rfl
  | some r => rfl

/-- The return value, the lines and the links of `cc_oci_expand_cmdline` are the same
for two configurations that differ in the inputs of the kernel IP parameter only. -/
theorem expand_cmdline_congr (env : Env) (c1 c2 : cc_oci_config)
    (args : Option (List String)) (h : same_but_kernel_net_fields c1 c2) :
    (cc_oci_expand_cmdline env (some c1) args).map (fun r => (r.ret, r.args, r.symlinks))
      = (cc_oci_expand_cmdline env (some c2) args).map
          (fun r => (r.ret, r.args, r.symlinks)) := by
  obtain ⟨oci1, vm1, net1, state1, bp1, con1, usc1⟩ := c1
  obtain ⟨oci2, vm2, net2, state2, bp2, con2, usc2⟩ := c2
  obtain ⟨h1, h2, h3, h4, h5, h6, _, _, ht, hh⟩ := h
  simp only at h1 h2 h3 h4 h5 h6 ht hh
  subst h1 h2 h3 h4 h5 h6
  have key : ∀ (con : Option String) (usc : Bool),
      cc_oci_expand_network_cmdline
          { oci := oci1, vm := vm1, net := net1, state := state1, bundle_path := bp1,
            console := con, use_socket_console := usc } net_cmdline.absent
        = cc_oci_expand_network_cmdline
          { oci := oci1, vm := vm1, net := net2, state := state1, bundle_path := bp1,
            console := con, use_socket_console := usc } net_cmdline.absent :=
    fun con usc => expand_network_cmdline_congr _ _ _ ht hh
  cases args with
  | none => simp [cc_oci_expand_cmdline]
  | some args =>
    cases vm1 with
    | none => simp [cc_oci_expand_cmdline]
    | some vm =>
      cases bp1 with
      | none => simp [cc_oci_expand_cmdline]
      | some bp =>
        have tags : ∀ (con : Option String) (usc : Bool) (bytes procsock_device
            console_device name_value uuid_str : String) (net : net_cmdline),
            special_tags
                { oci := oci1, vm := some vm, net := net1, state := state1,
                  bundle_path := some bp, console := con, use_socket_console := usc }
                vm bytes procsock_device console_device name_value uuid_str net
              = special_tags
                { oci := oci1, vm := some vm, net := net2, state := state1,
                  bundle_path := some bp, console := con, use_socket_console := usc }
                vm bytes procsock_device console_device name_value uuid_str net :=
          fun _ _ _ _ _ _ _ _ => rfl
        by_cases hi : vm.image_path = ""
        · simp [cc_oci_expand_cmdline, hi]
        · cases hfi : env.fs vm.image_path with
          | none => simp [cc_oci_expand_cmdline, hi, hfi]
          | some st =>
            by_cases hk : vm.kernel_path = ""
            · simp [cc_oci_expand_cmdline, hi, hfi, hk]
            · cases hfk : env.fs vm.kernel_path with
              | none => simp [cc_oci_expand_cmdline, hi, hfi, hk, hfk, g_file_test]
              | some stk =>
                by_cases hr : oci1.root_path = ""
                · simp [cc_oci_expand_cmdline, hi, hfi, hk, hfk, hr, g_file_test]
                · cases hfr : env.fs oci1.root_path with
                  | none =>
                    simp [cc_oci_expand_cmdline, hi, hfi, hk, hfk, hr, hfr, g_file_test]
                  | some str =>
                    by_cases hc : con1 = none ∨ con1 = some ""
                    · by_cases hty : env.isatty_stdin = true
                      · simp only [cc_oci_expand_cmdline, hi, hfi, hk, hfk, hr, hfr,
                          g_file_test, hc, hty, g_strrstr_uuid_str]
                        simp [hk, hr]
                        simp only [key, tags]
                        exact expand_result_view _ _ _ _
                      · by_cases hs1 : env.symlink (env.g_build_path bp "init-stdout")
                            (env.g_build_path bp "cc-std.out") = true
                        · by_cases hs2 : env.symlink (env.g_build_path bp "init-stdin")
                              (env.g_build_path bp "cc-std.in") = true
                          · simp only [cc_oci_expand_cmdline, hi, hfi, hk, hfk, hr, hfr,
                              g_file_test, hc, hty, hs1, hs2, g_strrstr_uuid_str]
                            simp [hk, hr]
                            simp only [key, tags]
                            exact expand_result_view _ _ _ _
                          · simp [cc_oci_expand_cmdline, hi, hfi, hk, hfk, hr, hfr,
                              g_file_test, hc, hty, hs1, hs2]
                        · simp [cc_oci_expand_cmdline, hi, hfi, hk, hfk, hr, hfr,
                            g_file_test, hc, hty, hs1]
                    · simp only [cc_oci_expand_cmdline, hi, hfi, hk, hfk, hr, hfr,
                        g_file_test, hc, g_strrstr_uuid_str]
                      simp [hk, hr]
                      simp only [key, tags]
                      exact expand_result_view _ _ _ _

/-- C23: the placeholder names of the substitution table are the eighteen names of
lines 439-459, none of which is a substring of `@KERNEL_NET_PARAMS@`; and for two
configurations that differ only in the fields read by
`cc_oci_expand_net_kernel_cmdline` (network hostname, gateway, and IP address,
subnet mask, IPv6 address and name of the first interface) the table is the same
and `cc_oci_expand_cmdline` gives the same return value, the same lines and the
same links: the kernel IP parameter reaches neither the table nor the lines. -/
theorem C23_kernel_net_params_not_substituted (env : Env) (c1 c2 : cc_oci_config)
    (args : Option (List String)) (h : same_but_kernel_net_fields c1 c2) :
    (∀ (vm : cc_oci_vm_cfg) (bytes procsock_device console_device name_value
        uuid_str : String),
      special_tags c1 vm bytes procsock_device console_device name_value uuid_str
          (cc_oci_expand_network_cmdline c1 net_cmdline.absent)
        = special_tags c2 vm bytes procsock_device console_device name_value uuid_str
          (cc_oci_expand_network_cmdline c2 net_cmdline.absent)) ∧
    (cc_oci_expand_cmdline env (some c1) args).map (fun r => (r.ret, r.args, r.symlinks))
      = (cc_oci_expand_cmdline env (some c2) args).map
          (fun r => (r.ret, r.args, r.symlinks)) ∧
    (∀ (vm : cc_oci_vm_cfg) (bytes procsock_device console_device name_value
        uuid_str : String) (net : net_cmdline),
      (special_tags c1 vm bytes procsock_device console_device name_value uuid_str net).map
          (fun tag => tag.name)
        = ["@WORKLOAD_DIR@", "@KERNEL@", "@KERNEL_PARAMS@", "@IMAGE@", "@SIZE@",
           "@COMMS_SOCKET@", "@PROCESS_SOCKET@", "@CONSOLE_DEVICE@", "@NAME@", "@UUID@",
           "@NETDEV@", "@NETDEV_PARAMS@", "@NETDEVICE@", "@NETDEVICE_PARAMS@",
           "@NETDEV2@", "@NETDEV2_PARAMS@", "@NETDEVICE2@", "@NETDEVICE2_PARAMS@"]) ∧
    (∀ name ∈ ["@WORKLOAD_DIR@", "@KERNEL@", "@KERNEL_PARAMS@", "@IMAGE@", "@SIZE@",
           "@COMMS_SOCKET@", "@PROCESS_SOCKET@", "@CONSOLE_DEVICE@", "@NAME@", "@UUID@",
           "@NETDEV@", "@NETDEV_PARAMS@", "@NETDEVICE@", "@NETDEVICE_PARAMS@",
           "@NETDEV2@", "@NETDEV2_PARAMS@", "@NETDEVICE2@", "@NETDEVICE2_PARAMS@"],
      ¬ ∃ before after : List Char,
        "@KERNEL_NET_PARAMS@".data = before ++ String.data name ++ after) := by
  refine ⟨?_, expand_cmdline_congr env c1 c2 args h, ?_, ?_⟩
  · intro vm bytes procsock_device console_device name_value uuid_str
    obtain ⟨h1, _, h3, _, _, _, _, _, ht, hh⟩ := h
    rw [expand_network_cmdline_congr c1 c2 net_cmdline.absent ht hh]
    simp [special_tags, h1, h3]
  · intro vm bytes procsock_device console_device name_value uuid_str net
    rfl
  · intro name hname
    have hdec : ∀ n ∈ ["@WORKLOAD_DIR@", "@KERNEL@", "@KERNEL_PARAMS@", "@IMAGE@", "@SIZE@",
           "@COMMS_SOCKET@", "@PROCESS_SOCKET@", "@CONSOLE_DEVICE@", "@NAME@", "@UUID@",
           "@NETDEV@", "@NETDEV_PARAMS@", "@NETDEVICE@", "@NETDEVICE_PARAMS@",
           "@NETDEV2@", "@NETDEV2_PARAMS@", "@NETDEVICE2@", "@NETDEVICE2_PARAMS@"],
        ¬ (String.data n <:+: "@KERNEL_NET_PARAMS@".data) := by
      decide
    rintro ⟨before, after, hsplit⟩
    exact hdec name hname ⟨before, after, hsplit.symm⟩

/-- Witness of `C23_kernel_net_params_not_substituted`: two example configurations
with different kernel IP parameters give the same lines. -/
theorem C23_kernel_net_params_not_substituted_witness :
    cc_oci_expand_net_kernel_cmdline (example_config [example_if])
      ≠ cc_oci_expand_net_kernel_cmdline example_config_other_net ∧
    (cc_oci_expand_cmdline example_env_replacing (some (example_config [example_if]))
        (some ["/usr/bin/qemu-lite", "@NETDEV_PARAMS@", "@KERNEL_NET_PARAMS@"])).map
        (fun r => (r.ret, r.args, r.symlinks))
      = (cc_oci_expand_cmdline example_env_replacing (some example_config_other_net)
        (some ["/usr/bin/qemu-lite", "@NETDEV_PARAMS@", "@KERNEL_NET_PARAMS@"])).map
        (fun r => (r.ret, r.args, r.symlinks)) :=
  ⟨by decide,
   (C23_kernel_net_params_not_substituted example_env_replacing (example_config [example_if])
      example_config_other_net
      (some ["/usr/bin/qemu-lite", "@NETDEV_PARAMS@", "@KERNEL_NET_PARAMS@"])
      ⟨rfl, rfl, rfl, rfl, rfl, rfl, rfl, rfl, rfl, rfl⟩).2.1⟩

/-! ### The builder after the read of the template -/

/-- Once the template is read, the builder hands the lines to
`cc_oci_expand_cmdline`; on failure it returns the lines as they stand, on success
it returns what the compaction pass makes of them. -/
theorem vm_args_get_after_read (env : BuilderEnv) (config : cc_oci_config)
    (lines : List String)
    (hread : env.cc_oci_file_to_strv (cc_oci_vm_args_file_path env (some config)).1
      = some lines) :
    cc_oci_vm_args_get env (some config) true =
      (cc_oci_expand_cmdline env.toEnv (some config) (some lines)).map fun r =>
        { ret := r.ret,
          args := if r.ret = true then r.args.map compact_args else r.args,
          config := r.config, symlinks := r.symlinks,
          trace := (cc_oci_vm_args_file_path env (some config)).2
            ++ [io_event.template_read (cc_oci_vm_args_file_path env (some config)).1,
                io_event.expand_cmdline] } := by
  simp only [cc_oci_vm_args_get, hread]
  cases hexp : cc_oci_expand_cmdline env.toEnv (some config) (some lines) with
  | none => simp
  | some r =>
    cases hret : r.ret <;> simp [hret]

/-- C8: once the template is read, the builder `cc_oci_vm_args_get` returns, when
token substitution succeeds, exactly the substituted lines that are not the empty
string, in their order, each one stripped by `g_strstrip` (and the lines as they
stand when substitution fails); this is what the compaction pass `compact_args`
makes of any list of lines; and `g_strstrip` removes whitespace, and only
whitespace, from both ends: what it returns neither starts nor ends with
whitespace. -/
theorem C8_compaction_filters_and_trims (env : BuilderEnv) (config : cc_oci_config)
    (lines : List String)
    (hread : env.cc_oci_file_to_strv (cc_oci_vm_args_file_path env (some config)).1
      = some lines) :
    cc_oci_vm_args_get env (some config) true =
      ((cc_oci_expand_cmdline env.toEnv (some config) (some lines)).map fun r =>
        { ret := r.ret,
          args :=
            if r.ret = true then
              r.args.map fun substituted =>
                (substituted.filter fun l => decide (l ≠ "")).map g_strstrip
            else r.args,
          config := r.config, symlinks := r.symlinks,
          trace := (cc_oci_vm_args_file_path env (some config)).2
            ++ [io_event.template_read (cc_oci_vm_args_file_path env (some config)).1,
                io_event.expand_cmdline] }) ∧
    (∀ args : List String,
      compact_args args = (args.filter fun l => decide (l ≠ "")).map g_strstrip) ∧
    ∀ s : String, ∃ pre suf : List Char,
      s.data = pre ++ (g_strstrip s).data ++ suf ∧
      (∀ c ∈ pre, g_ascii_isspace c = true) ∧ (∀ c ∈ suf, g_ascii_isspace c = true) ∧
      (∀ c, (g_strstrip s).data.head? = some c → g_ascii_isspace c = false) ∧
      (∀ c, (g_strstrip s).data.getLast? = some c → g_ascii_isspace c = false) := by
  refine ⟨?_, compact_args_eq, g_strstrip_spec⟩
  rw [vm_args_get_after_read env config lines hread]
  have hfun : compact_args = fun substituted : List String =>
      (substituted.filter fun l => decide (l ≠ "")).map g_strstrip :=
    funext compact_args_eq
  rw [hfun]

/-- Witness of `C8_compaction_filters_and_trims`: the builder on the example template
with surrounding whitespace, a trailing comment, an empty line and a comment line. -/
theorem C8_compaction_filters_and_trims_witness :
    (cc_oci_vm_args_get example_builder_env_spaces (some (example_config [example_if]))
        true).map (fun r => (r.ret, r.args))
      = some (true, some ["/usr/bin/qemu-lite", "-m 1G", "-nographic"]) := by
  rw [(C8_compaction_filters_and_trims example_builder_env_spaces
    (example_config [example_if])
    ["/usr/bin/qemu-lite", "  -m 1G  # memory", "", "# comment", "\t-nographic "]
    (by decide)).1]
  decide

/-- C22: on a run of the builder in which the template is read and token substitution
succeeds, leaving the lines `substituted`, the final argument vector is what the
compaction pass makes of them; a line of `substituted` that is not empty and holds
nothing but whitespace is in it as the empty string, at its place between what the
pass makes of the lines before and of the lines after; and the final vector
contains an empty string exactly when some line of `substituted` is not empty and
holds nothing but whitespace.  The same holds of the pass `compact_args` on any
list of lines; the template lines of two spaces and ` # comment` (a single space
after comment handling) end as empty arguments. -/
theorem C22_whitespace_only_lines_survive (env : BuilderEnv) (config : cc_oci_config)
    (lines substituted : List String) (r : expand_result)
    (hread : env.cc_oci_file_to_strv (cc_oci_vm_args_file_path env (some config)).1
      = some lines)
    (hexp : cc_oci_expand_cmdline env.toEnv (some config) (some lines) = some r)
    (hret : r.ret = true) (hargs : r.args = some substituted) :
    (∃ final : vm_args_result,
      cc_oci_vm_args_get env (some config) true = some final ∧ final.ret = true ∧
      final.args = some (compact_args substituted) ∧
      (∀ (pre post : List String) (l : String), substituted = pre ++ l :: post → l ≠ "" →
        (∀ c ∈ l.data, g_ascii_isspace c = true) →
        final.args = some (compact_args pre ++ "" :: compact_args post)) ∧
      (∀ vector : List String, final.args = some vector →
        ("" ∈ vector ↔
          ∃ l ∈ substituted, l ≠ "" ∧ ∀ c ∈ l.data, g_ascii_isspace c = true))) ∧
    (∀ (args pre post : List String) (l : String), args = pre ++ l :: post → l ≠ "" →
      (∀ c ∈ l.data, g_ascii_isspace c = true) →
      compact_args args = compact_args pre ++ "" :: compact_args post) ∧
    (∀ args : List String, "" ∈ compact_args args ↔
      ∃ l ∈ args, l ≠ "" ∧ ∀ c ∈ l.data, g_ascii_isspace c = true) ∧
    compact_args ["  "] = [""] ∧
    strip_comment " # comment" = some " " ∧
    compact_args ["-m", " ", "1G"] = ["-m", "", "1G"] := by
  have hsplit : ∀ (args pre post : List String) (l : String), args = pre ++ l :: post →
      l ≠ "" → (∀ c ∈ l.data, g_ascii_isspace c = true) →
      compact_args args = compact_args pre ++ "" :: compact_args post := by
    intro args pre post l hargs hl hws
    have hone : compact_args [l] = [""] := by
      rw [compact_args_eq, List.filter_cons_of_pos (by simp [hl])]
      simp [(g_strstrip_eq_empty_iff l).mpr hws]
    have hsplit : pre ++ l :: post = pre ++ ([l] ++ post) := by simp
    rw [hargs, hsplit, compact_args_append, compact_args_append, hone]
    simp
  have hmem : ∀ args : List String, "" ∈ compact_args args ↔
      ∃ l ∈ args, l ≠ "" ∧ ∀ c ∈ l.data, g_ascii_isspace c = true := by
    intro args
    rw [compact_args_eq]
    constructor
    · intro h
      obtain ⟨l, hl, hstrip⟩ := List.mem_map.mp h
      have hmem := (List.mem_filter.mp hl).1
      have hne : l ≠ "" := by simpa using (List.mem_filter.mp hl).2
      exact ⟨l, hmem, hne, (g_strstrip_eq_empty_iff l).mp hstrip⟩
    · rintro ⟨l, hmem, hne, hws⟩
      exact List.mem_map.mpr ⟨l, List.mem_filter.mpr ⟨hmem, by simp [hne]⟩,
        (g_strstrip_eq_empty_iff l).mpr hws⟩
  refine ⟨?_, hsplit, hmem, by decide, by decide, by decide⟩
  refine ⟨_, by rw [vm_args_get_after_read env config lines hread, hexp]; rfl, hret, ?_, ?_, ?_⟩
  · simp [hret, hargs]
  · intro pre post l hsub hl hws
    simp [hret, hargs, hsplit substituted pre post l hsub hl hws]
  · intro vector hvec
    simp only [hret, hargs, if_true, Option.map_some', Option.some.injEq] at hvec
    rw [← hvec]
    exact hmem substituted

/-- Witness of `C22_whitespace_only_lines_survive`: the builder on a template with
the lines ` # comment` and two spaces returns two empty arguments. -/
theorem C22_whitespace_only_lines_survive_witness :
    ∃ final : vm_args_result,
      cc_oci_vm_args_get example_builder_env_blank (some (example_config [example_if])) true
        = some final ∧
      final.ret = true ∧
      final.args = some (compact_args ["/usr/bin/qemu-lite", " ", "  ", "-m 1G"]) ∧
      compact_args ["/usr/bin/qemu-lite", " ", "  ", "-m 1G"]
        = ["/usr/bin/qemu-lite", "", "", "-m 1G"] := by
  obtain ⟨final, h1, h2, h3, _⟩ :=
    (C22_whitespace_only_lines_survive example_builder_env_blank
      (example_config [example_if])
      ["/usr/bin/qemu-lite", " # comment", "  ", "-m 1G"]
      ["/usr/bin/qemu-lite", " ", "  ", "-m 1G"]
      { ret := true, config := some (example_config [example_if]),
        args := some ["/usr/bin/qemu-lite", " ", "  ", "-m 1G"], symlinks := [] }
      (by decide) rfl rfl rfl).1
  exact ⟨final, h1, h2, h3, by decide⟩

/-! ### The two scalar fields of the dispatcher -/

/-- Dispatch of a document whose children before `node` succeed: the node's scalar
copy is made on the configuration they left, the handler loop runs on that copy,
and the later children follow when it succeeds. -/
theorem process_config_child (data : Option String) (pre post : List GNode) (node : GNode)
    (config : cc_oci_config) (spec_handlers : List spec_handler) (d : String)
    (hpre : (cc_oci_process_config (some (GNode.node data pre)) config spec_handlers).ret
      = true)
    (hd : node.data = some d) :
    cc_oci_process_config (some (GNode.node data (pre ++ node :: post))) config spec_handlers
      = if (handler_loop node d pre.length spec_handlers 0
            (copy_scalars node d
              (cc_oci_process_config (some (GNode.node data pre)) config spec_handlers).config)
            (cc_oci_process_config (some (GNode.node data pre)) config
              spec_handlers).calls).ret = true then
          process_children spec_handlers post (pre.length + 1)
            (handler_loop node d pre.length spec_handlers 0
              (copy_scalars node d
                (cc_oci_process_config (some (GNode.node data pre)) config
                  spec_handlers).config)
              (cc_oci_process_config (some (GNode.node data pre)) config
                spec_handlers).calls).config
            (handler_loop node d pre.length spec_handlers 0
              (copy_scalars node d
                (cc_oci_process_config (some (GNode.node data pre)) config
                  spec_handlers).config)
              (cc_oci_process_config (some (GNode.node data pre)) config
                spec_handlers).calls).calls
        else
          handler_loop node d pre.length spec_handlers 0
            (copy_scalars node d
              (cc_oci_process_config (some (GNode.node data pre)) config spec_handlers).config)
            (cc_oci_process_config (some (GNode.node data pre)) config spec_handlers).calls := by
  simp only [cc_oci_process_config, GNode.children] at hpre ⊢
  rw [process_children_append, if_pos hpre]
  simp only [process_children, hd, Nat.zero_add]

/-- C17: in `cc_oci_process_config`, for a top-level child `node` with label `d`
reached after the children `pre` (dispatched with success, leaving the configuration
`c`): the dispatcher first makes the scalar copy on `c`, which for a node with a
first nested child sets the OCI version (label `ociVersion`) or the hostname (label
`hostname`) to the data of that child, and which is `c` itself for a node without
children and for any other label; then, whatever the handler lookup gives: without
a handler named `d` dispatch goes on with the later children from the copy, and
with a first handler `h` named `d`, `h` is called on the copy. -/
theorem C17_scalar_fields_copied (data : Option String) (pre post : List GNode)
    (node : GNode) (config : cc_oci_config) (spec_handlers : List spec_handler) (d : String)
    (hpre : (cc_oci_process_config (some (GNode.node data pre)) config spec_handlers).ret
      = true)
    (hd : node.data = some d) :
    (∀ (first : GNode) (others : List GNode), node.children = first :: others →
      d = "ociVersion" →
      copy_scalars node d
          (cc_oci_process_config (some (GNode.node data pre)) config spec_handlers).config
        = { (cc_oci_process_config (some (GNode.node data pre)) config
              spec_handlers).config with
            oci := { (cc_oci_process_config (some (GNode.node data pre)) config
                       spec_handlers).config.oci with oci_version := first.data } }) ∧
    (∀ (first : GNode) (others : List GNode), node.children = first :: others →
      d = "hostname" →
      copy_scalars node d
          (cc_oci_process_config (some (GNode.node data pre)) config spec_handlers).config
        = { (cc_oci_process_config (some (GNode.node data pre)) config
              spec_handlers).config with
            oci := { (cc_oci_process_config (some (GNode.node data pre)) config
                       spec_handlers).config.oci with hostname := first.data } }) ∧
    (node.children = [] ∨ (d ≠ "ociVersion" ∧ d ≠ "hostname") →
      copy_scalars node d
          (cc_oci_process_config (some (GNode.node data pre)) config spec_handlers).config
        = (cc_oci_process_config (some (GNode.node data pre)) config spec_handlers).config) ∧
    ((∀ x ∈ spec_handlers, x.name ≠ d) →
      cc_oci_process_config (some (GNode.node data (pre ++ node :: post))) config
          spec_handlers
        = process_children spec_handlers post (pre.length + 1)
            (copy_scalars node d
              (cc_oci_process_config (some (GNode.node data pre)) config spec_handlers).config)
            (cc_oci_process_config (some (GNode.node data pre)) config spec_handlers).calls) ∧
    (∀ (hs1 hs2 : List spec_handler) (h : spec_handler), spec_handlers = hs1 ++ h :: hs2 →
      (∀ x ∈ hs1, x.name ≠ d) → h.name = d →
      cc_oci_process_config (some (GNode.node data (pre ++ node :: post))) config
          spec_handlers
        = if (h.handle_section node (copy_scalars node d
              (cc_oci_process_config (some (GNode.node data pre)) config
                spec_handlers).config)).1 = true then
            process_children spec_handlers post (pre.length + 1)
              (h.handle_section node (copy_scalars node d
                (cc_oci_process_config (some (GNode.node data pre)) config
                  spec_handlers).config)).2
              ((cc_oci_process_config (some (GNode.node data pre)) config
                  spec_handlers).calls
                ++ [{ handler := hs1.length, child := pre.length, ok := true }])
          else
            { ret := false,
              config := (h.handle_section node (copy_scalars node d
                (cc_oci_process_config (some (GNode.node data pre)) config
                  spec_handlers).config)).2,
              calls := (cc_oci_process_config (some (GNode.node data pre)) config
                  spec_handlers).calls
                ++ [{ handler := hs1.length, child := pre.length, ok := false }] }) := by
  refine ⟨?_, ?_, ?_, ?_, ?_⟩
  · intro first others hc hv
    subst hv
    simp [copy_scalars, hc]
  · intro first others hc hh
    subst hh
    simp [copy_scalars, hc]
  · intro h
    unfold copy_scalars
    rcases h with hc | ⟨hv, hh⟩
    · simp [hc]
    · cases node.children <;> simp [hv, hh]
  · intro hno
    rw [process_config_child data pre post node config spec_handlers d hpre hd,
      handler_loop_no_match node d pre.length spec_handlers 0 _ _ hno]
    simp
  · intro hs1 hs2 h hsplit hno hname
    rw [process_config_child data pre post node config spec_handlers d hpre hd]
    subst hsplit
    rw [handler_loop_first_match node d pre.length hs1 h hs2 0 _ _ hno hname]
    by_cases hok : (h.handle_section node (copy_scalars node d
        (cc_oci_process_config (some (GNode.node data pre)) config
          (hs1 ++ h :: hs2)).config)).1 = true
    · simp [hok]
    · have hf : (h.handle_section node (copy_scalars node d
          (cc_oci_process_config (some (GNode.node data pre)) config
            (hs1 ++ h :: hs2)).config)).1 = false := by
        simpa using hok
      simp [hf]

/-- Witness of `C17_scalar_fields_copied`: behind a `process` section, the sections
`ociVersion` and `hostname` set the two fields; the handler named `hostname` is
called all the same. -/
theorem C17_scalar_fields_copied_witness :
    (cc_oci_process_config
        (some (GNode.node none
          ([section_node "process" "p"] ++ section_node "ociVersion" "1.0.2"
            :: [section_node "hostname" "guest"])))
        (example_config []) example_handlers).config.oci.oci_version = some "1.0.2" ∧
    (cc_oci_process_config
        (some (GNode.node none
          ([section_node "process" "p"] ++ section_node "ociVersion" "1.0.2"
            :: [section_node "hostname" "guest"])))
        (example_config []) example_handlers).config.oci.hostname = some "guest" ∧
    (cc_oci_process_config
        (some (GNode.node none
          ([section_node "process" "p"] ++ section_node "ociVersion" "1.0.2"
            :: [section_node "hostname" "guest"])))
        (example_config []) example_handlers).calls
      = [{ handler := 0, child := 0, ok := true }, { handler := 3, child := 2, ok := true }] := by
  have h := (C17_scalar_fields_copied none [section_node "process" "p"]
    [section_node "hostname" "guest"] (section_node "ociVersion" "1.0.2")
    (example_config []) example_handlers "ociVersion" (by decide) rfl).2.2.2.1
    (by
      intro x hx
      simp only [example_handlers, List.mem_cons, List.mem_singleton, List.not_mem_nil,
        or_false] at hx
      rcases hx with rfl | rfl | rfl | rfl <;> decide)
  rw [h]
  decide

/-! ### The table of a successful substitution -/

/-- A run of `cc_oci_expand_cmdline` either fails before the loop over the lines (a
precondition or a symbolic link failed), leaving the lines untouched, or goes
through that loop with the table of lines 438-461, in which the value of `@NAME@`
is the part of the UUID string behind offset 23 and the value of `@UUID@` the UUID
string; its return value and the lines it leaves are then those of the loop. -/
theorem expand_cmdline_tags (env : Env) (config : cc_oci_config)
    (args : List String) (r : expand_result)
    (h : cc_oci_expand_cmdline env (some config) (some args) = some r) :
    (r.ret = false ∧ r.args = some args) ∨
    ∃ (config2 : cc_oci_config) (vm : cc_oci_vm_cfg)
      (bytes procsock_device console_device : String) (lines : List String),
      expand_args env
          (special_tags config2 vm bytes procsock_device console_device
            ⟨(uuid_str env.uuid).data.drop (23 + 1)⟩ (uuid_str env.uuid)
            (cc_oci_expand_network_cmdline config2 net_cmdline.absent))
          args 0 = some (r.ret, lines) ∧
      r.args = some lines ∧ r.config = some config2 := by
  have hfalse : ∀ (c : Option cc_oci_config) (l : List (String × String)),
      some ({ ret := false, config := c, args := some args, symlinks := l } : expand_result)
        = some r →
      r.ret = false ∧ r.args = some args := by
    intro c l he
    have := Option.some.inj he
    rw [← this]
    exact ⟨rfl, rfl⟩
  have hloop : ∀ (tags : List special_tag) (config2 : cc_oci_config)
      (l : List (String × String)),
      (match expand_args env tags args 0 with
        | none => none
        | some (ret, args) =>
          some ({ ret := ret, config := some config2, args := some args,
                  symlinks := l } : expand_result)) = some r →
      ∃ lines, expand_args env tags args 0 = some (r.ret, lines) ∧ r.args = some lines ∧
        r.config = some config2 := by
    intro tags config2 l he
    cases hexp : expand_args env tags args 0 with
    | none => rw [hexp] at he; simp at he
    | some p =>
      obtain ⟨ret, lines⟩ := p
      rw [hexp] at he
      have := Option.some.inj he
      subst this
      exact ⟨lines, rfl, rfl, rfl⟩
  cases hvm : config.vm with
  | none => exact Or.inl (hfalse _ _ (by simpa [cc_oci_expand_cmdline, hvm] using h))
  | some vm =>
    cases hb : config.bundle_path with
    | none => exact Or.inl (hfalse _ _ (by simpa [cc_oci_expand_cmdline, hvm, hb] using h))
    | some bp =>
      by_cases hi : vm.image_path = ""
      · exact Or.inl (hfalse _ _ (by simpa [cc_oci_expand_cmdline, hvm, hb, hi] using h))
      · cases hfi : env.fs vm.image_path with
        | none =>
          exact Or.inl (hfalse _ _ (by simpa [cc_oci_expand_cmdline, hvm, hb, hi, hfi] using h))
        | some st =>
          by_cases hk : vm.kernel_path = ""
          · exact Or.inl (hfalse _ _
              (by simpa [cc_oci_expand_cmdline, hvm, hb, hi, hfi, hk] using h))
          · cases hfk : env.fs vm.kernel_path with
            | none =>
              exact Or.inl (hfalse _ _ (by
                simpa [cc_oci_expand_cmdline, hvm, hb, hi, hfi, hk, hfk, g_file_test]
                  using h))
            | some stk =>
              by_cases hr : config.oci.root_path = ""
              · exact Or.inl (hfalse _ _ (by
                  simpa [cc_oci_expand_cmdline, hvm, hb, hi, hfi, hk, hfk, hr, g_file_test]
                    using h))
              · cases hfr : env.fs config.oci.root_path with
                | none =>
                  exact Or.inl (hfalse _ _ (by
                    simpa [cc_oci_expand_cmdline, hvm, hb, hi, hfi, hk, hfk, hr, hfr,
                      g_file_test] using h))
                | some str =>
                  by_cases hc : config.console = none ∨ config.console = some ""
                  · by_cases hty : env.isatty_stdin = true
                    · simp only [cc_oci_expand_cmdline, hvm, hb, hi, hfi, hk, hfk, hr, hfr,
                        g_file_test, hc, hty, g_strrstr_uuid_str] at h
                      simp [hk, hr] at h
                      obtain ⟨lines, h1, h2, h3⟩ := hloop _ _ _ h
                      exact Or.inr ⟨_, _, _, _, _, lines, h1, h2, h3⟩
                    · by_cases hs1 : env.symlink (env.g_build_path bp "init-stdout")
                          (env.g_build_path bp "cc-std.out") = true
                      · by_cases hs2 : env.symlink (env.g_build_path bp "init-stdin")
                            (env.g_build_path bp "cc-std.in") = true
                        · simp only [cc_oci_expand_cmdline, hvm, hb, hi, hfi, hk, hfk, hr,
                            hfr, g_file_test, hc, hty, hs1, hs2, g_strrstr_uuid_str] at h
                          simp [hk, hr] at h
                          obtain ⟨lines, h1, h2, h3⟩ := hloop _ _ _ h
                          exact Or.inr ⟨_, _, _, _, _, lines, h1, h2, h3⟩
                        · exact Or.inl (hfalse _ _ (by
                            simpa [cc_oci_expand_cmdline, hvm, hb, hi, hfi, hk, hfk, hr, hfr,
                              g_file_test, hc, hty, hs1, hs2] using h))
                      · exact Or.inl (hfalse _ _ (by
                          simpa [cc_oci_expand_cmdline, hvm, hb, hi, hfi, hk, hfk, hr, hfr,
                            g_file_test, hc, hty, hs1] using h))
                  · simp only [cc_oci_expand_cmdline, hvm, hb, hi, hfi, hk, hfk, hr, hfr,
                      g_file_test, hc, g_strrstr_uuid_str] at h
                    simp [hk, hr] at h
                    obtain ⟨lines, h1, h2, h3⟩ := hloop _ _ _ h
                    exact Or.inr ⟨_, _, _, _, _, lines, h1, h2, h3⟩

/-- C18 as stated fails: for the version 4 UUID
`00112233-4455-4677-8899-aabbccddeeff` the line `@NAME@` becomes `aabbccddeeff`,
the part after the last hyphen, which is neither piece of the UUID split at its
first hyphen (the line `@UUID@` becomes the UUID itself). -/
theorem C18_name_not_split_at_first_hyphen :
    is_random_uuid example_env_version4.uuid ∧
    uuid_str example_env_version4.uuid = "00112233-4455-4677-8899-aabbccddeeff" ∧
    (cc_oci_expand_cmdline example_env_version4 (some (example_config [example_if]))
        (some ["/usr/bin/qemu-lite", "@NAME@", "@UUID@"])).map (fun r => (r.ret, r.args))
      = some (true, some ["/usr/bin/qemu-lite", "aabbccddeeff",
          "00112233-4455-4677-8899-aabbccddeeff"]) ∧
    ¬ ((∃ rest : String,
          "00112233-4455-4677-8899-aabbccddeeff" = "aabbccddeeff" ++ "-" ++ rest) ∨
       (∃ p : String, '-' ∉ p.data ∧
          "00112233-4455-4677-8899-aabbccddeeff" = p ++ "-" ++ "aabbccddeeff")) := by
  refine ⟨⟨by decide, by decide, by decide⟩, by decide, by decide, ?_⟩
  rintro (⟨rest, h⟩ | ⟨p, hp, h⟩)
  · have h2 := congrArg String.data h
    simp only [String.data_append] at h2
    have h3 := congrArg List.head? h2
    simp at h3
  · have h2 := congrArg String.data h
    simp only [String.data_append, List.append_assoc] at h2
    have h3 : "00112233-4455-4677-8899".data ++ ("-".data ++ "aabbccddeeff".data)
        = p.data ++ ("-".data ++ "aabbccddeeff".data) := h2
    have h4 := List.append_cancel_right h3
    exact hp (by rw [← h4]; decide)

/-- C18 (amended): with the generated UUID string `u`: `u = p ++ "-" ++ n` where `n`,
of 12 characters, contains no hyphen and `p` has the 23 characters of the first four
groups (`g_strrstr` finds that last hyphen at offset 23); and every run of
`cc_oci_expand_cmdline` either fails before the loop over the lines, leaving the
lines untouched, or has for return value and lines those of the loop run with the
table of lines 438-461 in which every entry named `@NAME@` has the value `n`, the
part of `u` after its last hyphen, and every entry named `@UUID@` has the value `u`,
and the table has such entries. -/
theorem C18_name_is_after_last_hyphen (env : Env) (config : cc_oci_config)
    (args : List String) (r : expand_result)
    (h : cc_oci_expand_cmdline env (some config) (some args) = some r) :
    ∃ p n : List Char,
      (uuid_str env.uuid).data = p ++ '-' :: n ∧ p.length = 23 ∧ n.length = 12 ∧ '-' ∉ n ∧
      g_strrstr (uuid_str env.uuid).data '-' = some 23 ∧
      ((r.ret = false ∧ r.args = some args) ∨
       ∃ (config2 : cc_oci_config) (vm : cc_oci_vm_cfg)
        (bytes procsock_device console_device : String) (lines : List String),
        expand_args env
            (special_tags config2 vm bytes procsock_device console_device ⟨n⟩
              (uuid_str env.uuid) (cc_oci_expand_network_cmdline config2 net_cmdline.absent))
            args 0 = some (r.ret, lines) ∧
        r.args = some lines ∧
        ({ name := "@NAME@", value := some ⟨n⟩ } : special_tag) ∈
          special_tags config2 vm bytes procsock_device console_device ⟨n⟩
            (uuid_str env.uuid) (cc_oci_expand_network_cmdline config2 net_cmdline.absent) ∧
        ({ name := "@UUID@", value := some (uuid_str env.uuid) } : special_tag) ∈
          special_tags config2 vm bytes procsock_device console_device ⟨n⟩
            (uuid_str env.uuid) (cc_oci_expand_network_cmdline config2 net_cmdline.absent) ∧
        ∀ tag ∈ special_tags config2 vm bytes procsock_device console_device ⟨n⟩
            (uuid_str env.uuid) (cc_oci_expand_network_cmdline config2 net_cmdline.absent),
          (tag.name = "@NAME@" → tag.value = some ⟨n⟩) ∧
          (tag.name = "@UUID@" → tag.value = some (uuid_str env.uuid))) := by
  have hn : '-' ∉ fmt_02x (env.uuid 10) ++ fmt_02x (env.uuid 11) ++ fmt_02x (env.uuid 12)
      ++ fmt_02x (env.uuid 13) ++ fmt_02x (env.uuid 14) ++ fmt_02x (env.uuid 15) := by
    simp [fmt_02x, fun n => (hex_digit_ne_hyphen n).symm]
  have hdrop : (uuid_str env.uuid).data.drop (23 + 1)
      = fmt_02x (env.uuid 10) ++ fmt_02x (env.uuid 11) ++ fmt_02x (env.uuid 12)
        ++ fmt_02x (env.uuid 13) ++ fmt_02x (env.uuid 14) ++ fmt_02x (env.uuid 15) := by
    rw [uuid_str_data env.uuid]
    simp [fmt_02x]
  refine ⟨_, _, uuid_str_data env.uuid, by simp [fmt_02x], by simp [fmt_02x], hn,
    g_strrstr_uuid_str env.uuid, ?_⟩
  rcases expand_cmdline_tags env config args r h with hfail |
    ⟨config2, vm, bytes, procsock_device, console_device, lines, h1, h2, _⟩
  · exact Or.inl hfail
  · rw [hdrop] at h1
    refine Or.inr ⟨config2, vm, bytes, procsock_device, console_device, lines,
      h1, h2, by simp [special_tags], by simp [special_tags], ?_⟩
    intro tag htag
    simp only [special_tags, List.mem_cons, List.mem_singleton, List.not_mem_nil, or_false]
      at htag
    rcases htag with rfl | rfl | rfl | rfl | rfl | rfl | rfl | rfl | rfl | rfl | rfl | rfl
      | rfl | rfl | rfl | rfl | rfl | rfl <;> simp

/-- Witness of `C18_name_is_after_last_hyphen`: the run on the lines `@NAME@` and
`@UUID@` with the version 4 UUID `00112233-4455-4677-8899-aabbccddeeff`, whose part
after the last hyphen is `aabbccddeeff`. -/
theorem C18_name_is_after_last_hyphen_witness :
    ∃ p n : List Char,
      (uuid_str example_env_version4.uuid).data = p ++ '-' :: n ∧ p.length = 23 ∧
      '-' ∉ n ∧ n = "aabbccddeeff".data := by
  obtain ⟨p, n, h1, h2, _, h4, _⟩ :=
    C18_name_is_after_last_hyphen example_env_version4 (example_config [example_if])
      ["/usr/bin/qemu-lite", "@NAME@", "@UUID@"]
      { ret := true, config := some (example_config [example_if]),
        args := some ["/usr/bin/qemu-lite", "aabbccddeeff",
          "00112233-4455-4677-8899-aabbccddeeff"],
        symlinks := [] }
      rfl
  refine ⟨p, n, h1, h2, h4, ?_⟩
  have hd : (uuid_str example_env_version4.uuid).data.drop 24 = n := by
    rw [h1]
    have e : 24 = p.length + 1 := by omega
    rw [e, List.drop_append_eq_append_drop]
    simp
  rw [← hd]
  decide

end CcOci
